import Mathlib

/-!
# The analysis driver of the IDE (`src/src/IDE.jsx`)

A shallow embedding of `handleRunAnalysis`, the function of the `IDE` component that
drives the five analysis stages and stores their results in the component's state, and of
`QuadrupleTable`, the component that renders a sequence of quadruples.

The four stages are imported from modules that are not part of the source at hand
(`lexer-parser.js`, `semantic-analyzer.js`, `intermediate-gen.js`, `optimizer.js`);
they are parameters of the embedding (`Stages`).  A stage either returns a value or
throws an error carrying a message, so a stage is a function into `Except String`.

The component's state variables (`useState`) are the fields of `HostState`; a call of
a setter replaces the field, and the state held after the run is the value of the last
call of each setter.  A thrown error keeps the updates made before it, so a run is a
computation in `ExceptT String (StateM World)`.

The optimizer itself is in `optimizer.js`; where a statement is about what it computes, it
is modelled from section 4.5 of the spec (`optimize`), and every definition of that model
says so.
-/

namespace IDE

/-! ## Data -/

/-- A safe integer: an integer of magnitude below `2^53`.  It is a JavaScript number, and
`String()` of it is its decimal form. -/
abbrev SafeInt := { n : Int // n.natAbs < 9007199254740992 }

/-- The value held by an operand or result slot of a quadruple record, as far as
`QuadrupleTable` observes it (by `!== null` and by `String()`): the `null` marker,
`undefined` (an omitted slot), a boolean, a string, a number that is a safe integer, or any
other value (a fraction, a number of magnitude `2^53` or more, `NaN`, an infinity, an array
or another object), which is given by the string `shown` that `String()` returns for it. -/
inductive QValue where
  | null
  | undefined
  | bool (b : Bool)
  | str (s : String)
  | num (n : SafeInt)
  | other (shown : String)
  deriving DecidableEq, Repr

/-- One record of the intermediate code: `{ op, arg1, arg2, res }`. -/
structure Quadruple where
  op : String
  arg1 : QValue
  arg2 : QValue
  res : QValue
  deriving DecidableEq, Repr

/-- The object returned by `analyzeLexicalSyntactic`.  A counter is a natural number or
is missing (`undefined`, here `none`); `ast` is `none` when it is `null`/`undefined`. -/
structure LexSyntaxResults (Tree : Type) where
  lexicalResult : String
  syntacticResult : String
  ast : Option Tree
  lexicalErrors : Option Nat
  syntaxErrors : Option Nat
  tokenCount : Option Nat

/-- The object returned by `analyzeSemantics`. -/
structure SemResults where
  result : String
  errorCount : Option Nat
  warningCount : Option Nat
  deriving DecidableEq, Repr

/-- The record `stats` built by `handleRunAnalysis`. -/
structure AnalysisStats where
  lexicalErrors : Nat
  syntaxErrors : Nat
  semanticErrors : Nat
  warnings : Nat
  linesOfCode : Nat
  tokens : Nat
  characters : Nat
  deriving DecidableEq, Repr

/-- The state variables of the component that `handleRunAnalysis` writes.
`analysisStats` is `none` while it is `null`. -/
structure HostState where
  lexicalResult : String
  syntacticResult : String
  semanticResult : String
  intermediateCode : List Quadruple
  optimizedCode : List Quadruple
  analysisStats : Option AnalysisStats
  isAnalyzing : Bool
  deriving DecidableEq, Repr

/-- The initial values given to `useState`. -/
def HostState.initial : HostState :=
  { lexicalResult := "", syntacticResult := "", semanticResult := "",
    intermediateCode := [], optimizedCode := [], analysisStats := none,
    isAnalyzing := false }

/-- The four imported stages.  `generate t` stands for
`new QuadrupleGenerator().generate(t)`: a generator is constructed for each call.
A stage returns its result or throws an `Error` with a message; a result on which the
driver's property accesses would throw is counted as a throw of the stage. -/
structure Stages (Tree : Type) where
  analyzeLexicalSyntactic : String → Except String (LexSyntaxResults Tree)
  analyzeSemantics : Tree → Except String SemResults
  generate : Tree → Except String (List Quadruple)
  optimizeCode : List Quadruple → Except String (List Quadruple)

/-- One invocation of a stage, with its argument. -/
inductive Call (Tree : Type) where
  | analyzeLexicalSyntactic (code : String)
  | analyzeSemantics (ast : Tree)
  | generate (ast : Tree)
  | optimizeCode (quads : List Quadruple)
  deriving DecidableEq, Repr

/-- What a run acts on: the component's state, the log of the stage invocations made so
far (oldest first) and the delays of the timers set with `setTimeout`. -/
structure World (Tree : Type) where
  host : HostState
  calls : List (Call Tree)
  timers : List Nat

/-- A world with the given component state, an empty log and no timer. -/
def World.start {Tree : Type} (h : HostState) : World Tree :=
  { host := h, calls := [], timers := [] }

/-- Computations of a run: an error thrown keeps the state reached. -/
abbrev Run (Tree : Type) := ExceptT String (StateM (World Tree))

/-! ## JavaScript primitives used by the driver -/

/-- The expression `x || 0` on a counter: `x` when it is truthy (a number other than 0),
else `0`. -/
def orZero (x : Option Nat) : Nat :=
  match x with
  | some n => if n = 0 then 0 else n
  | none => 0

/-- The pieces of `s.split("\n")` for a text given as its characters. -/
def splitNewline : List Char → List (List Char)
  | [] => [[]]
  | c :: cs =>
    if c = '\n' then [] :: splitNewline cs
    else
      match splitNewline cs with
      | [] => [[c]]
      | l :: ls => (c :: l) :: ls

/-- The value of `code.split("\n").length`. -/
def linesOfCode (code : String) : Nat :=
  (splitNewline code.toList).length

/-- The number of UTF-16 code units of a character. -/
def utf16Units (c : Char) : Nat :=
  if c.toNat < 65536 then 1 else 2

/-- The value of `code.length`: the number of UTF-16 code units of the text. -/
def jsLength (code : String) : Nat :=
  (code.toList.map utf16Units).sum

/-! ## Setters and stage calls -/

/-- Apply an update to the component's state. -/
def setHost {Tree : Type} (f : HostState → HostState) : Run Tree Unit :=
  modify fun w => { w with host := f w.host }

def setLexicalResult {Tree : Type} (v : String) : Run Tree Unit :=
  setHost fun h => { h with lexicalResult := v }

def setSyntacticResult {Tree : Type} (v : String) : Run Tree Unit :=
  setHost fun h => { h with syntacticResult := v }

def setSemanticResult {Tree : Type} (v : String) : Run Tree Unit :=
  setHost fun h => { h with semanticResult := v }

def setIntermediateCode {Tree : Type} (v : List Quadruple) : Run Tree Unit :=
  setHost fun h => { h with intermediateCode := v }

def setOptimizedCode {Tree : Type} (v : List Quadruple) : Run Tree Unit :=
  setHost fun h => { h with optimizedCode := v }

def setAnalysisStats {Tree : Type} (v : AnalysisStats) : Run Tree Unit :=
  setHost fun h => { h with analysisStats := some v }

def setIsAnalyzing {Tree : Type} (v : Bool) : Run Tree Unit :=
  setHost fun h => { h with isAnalyzing := v }

/-- The call `setTimeout(() => setIsAnalyzing(false), delay)`: the timer is recorded, its
callback runs after the run. -/
def setTimeout {Tree : Type} (delay : Nat) : Run Tree Unit :=
  modify fun w => { w with timers := w.timers ++ [delay] }

/-- Invoke a stage: log the invocation, then return its value or throw its error. -/
def callStage {Tree α : Type} (c : Call Tree) (r : Except String α) : Run Tree α := do
  modify fun w => { w with calls := w.calls ++ [c] }
  match r with
  | .ok a => pure a
  | .error m => throw m

/-! ## The driver -/

/-- The function `handleRunAnalysis(silent)` of the component, for the source text `code`
held by the editor. -/
def handleRunAnalysis {Tree : Type} (S : Stages Tree) (code : String) (silent : Bool) :
    Run Tree Unit := do
  if !silent then setIsAnalyzing true
  try
    let lexSyntaxResults ←
      callStage (.analyzeLexicalSyntactic code) (S.analyzeLexicalSyntactic code)
    setLexicalResult lexSyntaxResults.lexicalResult
    setSyntacticResult lexSyntaxResults.syntacticResult

    let ast := lexSyntaxResults.ast
    let mut semResults : SemResults :=
      { result := "", errorCount := some 0, warningCount := some 0 }

    if let some tree := ast then
      semResults ← callStage (.analyzeSemantics tree) (S.analyzeSemantics tree)
      setSemanticResult semResults.result

      if lexSyntaxResults.syntaxErrors = some 0 then
        let quads ← callStage (.generate tree) (S.generate tree)
        setIntermediateCode quads
        let optQuads ← callStage (.optimizeCode quads) (S.optimizeCode quads)
        setOptimizedCode optQuads
      else
        setIntermediateCode []
        setOptimizedCode []

    let stats : AnalysisStats :=
      { lexicalErrors := orZero lexSyntaxResults.lexicalErrors,
        syntaxErrors := orZero lexSyntaxResults.syntaxErrors,
        semanticErrors := orZero semResults.errorCount,
        warnings := orZero semResults.warningCount,
        linesOfCode := linesOfCode code,
        tokens := orZero lexSyntaxResults.tokenCount,
        characters := jsLength code }

    setAnalysisStats stats
  catch error =>
    let errorMsg := "Error durante el análisis: " ++ error
    setLexicalResult errorMsg
    setSyntacticResult errorMsg
    setSemanticResult errorMsg
  finally
    if !silent then
      setTimeout 800

/-- Run a computation from a world: the outcome and the world reached. -/
def exec {Tree α : Type} (x : Run Tree α) (w : World Tree) : Except String α × World Tree :=
  x.run.run w

/-- The outcome and the world after one run started in the component state `h`. -/
def runAnalysis {Tree : Type} (S : Stages Tree) (code : String) (silent : Bool)
    (h : HostState) : Except String Unit × World Tree :=
  exec (handleRunAnalysis S code silent) (World.start h)

/-- The component state held after one run started in the component state `h`. -/
def stateAfter {Tree : Type} (S : Stages Tree) (code : String) (silent : Bool)
    (h : HostState) : HostState :=
  (runAnalysis S code silent h).2.host

/-- The stage invocations of one run, oldest first. -/
def callsOf {Tree : Type} (S : Stages Tree) (code : String) (silent : Bool)
    (h : HostState) : List (Call Tree) :=
  (runAnalysis S code silent h).2.calls

/-- The invocation `c` of a stage of `S` throws an error with message `m`. -/
def Stages.throwsWith {Tree : Type} (S : Stages Tree) (c : Call Tree) (m : String) : Prop :=
  match c with
  | .analyzeLexicalSyntactic code => S.analyzeLexicalSyntactic code = .error m
  | .analyzeSemantics ast => S.analyzeSemantics ast = .error m
  | .generate ast => S.generate ast = .error m
  | .optimizeCode quads => S.optimizeCode quads = .error m

/-- A stage invoked in the run throws an error with message `m`. -/
def StageThrows {Tree : Type} (S : Stages Tree) (code : String) (silent : Bool)
    (h : HostState) (m : String) : Prop :=
  ∃ c ∈ callsOf S code silent h, S.throwsWith c m

/-- No stage invoked in the run throws. -/
def NoStageThrows {Tree : Type} (S : Stages Tree) (code : String) (silent : Bool)
    (h : HostState) : Prop :=
  ∀ c ∈ callsOf S code silent h, ∀ m, ¬ S.throwsWith c m

/-- The path taken by a run, with the results of the stages invoked on it. -/
inductive Path {Tree : Type} (S : Stages Tree) (code : String) : Prop where
  | lexerThrows (m : String) (hl : S.analyzeLexicalSyntactic code = .error m)
  | noTree (r : LexSyntaxResults Tree) (hl : S.analyzeLexicalSyntactic code = .ok r)
      (ht : r.ast = none)
  | semanticsThrows (r : LexSyntaxResults Tree) (t : Tree) (m : String)
      (hl : S.analyzeLexicalSyntactic code = .ok r) (ht : r.ast = some t)
      (hs : S.analyzeSemantics t = .error m)
  | syntaxErrors (r : LexSyntaxResults Tree) (t : Tree) (s : SemResults)
      (hl : S.analyzeLexicalSyntactic code = .ok r) (ht : r.ast = some t)
      (hs : S.analyzeSemantics t = .ok s) (h0 : r.syntaxErrors ≠ some 0)
  | generatorThrows (r : LexSyntaxResults Tree) (t : Tree) (s : SemResults) (m : String)
      (hl : S.analyzeLexicalSyntactic code = .ok r) (ht : r.ast = some t)
      (hs : S.analyzeSemantics t = .ok s) (h0 : r.syntaxErrors = some 0)
      (hg : S.generate t = .error m)
  | optimizerThrows (r : LexSyntaxResults Tree) (t : Tree) (s : SemResults)
      (q : List Quadruple) (m : String)
      (hl : S.analyzeLexicalSyntactic code = .ok r) (ht : r.ast = some t)
      (hs : S.analyzeSemantics t = .ok s) (h0 : r.syntaxErrors = some 0)
      (hg : S.generate t = .ok q) (ho : S.optimizeCode q = .error m)
  | generates (r : LexSyntaxResults Tree) (t : Tree) (s : SemResults)
      (q o : List Quadruple)
      (hl : S.analyzeLexicalSyntactic code = .ok r) (ht : r.ast = some t)
      (hs : S.analyzeSemantics t = .ok s) (h0 : r.syntaxErrors = some 0)
      (hg : S.generate t = .ok q) (ho : S.optimizeCode q = .ok o)

/-! ## Descriptions of the states reached, used to state the lemmas on the paths of a run -/

/-- The component state after the first statement of the driver. -/
def begun (silent : Bool) (h : HostState) : HostState :=
  if silent then h else { h with isAnalyzing := true }

/-- The timers left by the `finally` block. -/
def timersOf (silent : Bool) : List Nat :=
  if silent then [] else [800]

/-- The component state after the `catch` block has run for an error with message `m`. -/
def failed (m : String) (h : HostState) : HostState :=
  { h with
    lexicalResult := "Error durante el análisis: " ++ m,
    syntacticResult := "Error durante el análisis: " ++ m,
    semanticResult := "Error durante el análisis: " ++ m }

/-- The record `stats` for the results `r` of the first stage and `s` of the second. -/
def statsOf {Tree : Type} (code : String) (r : LexSyntaxResults Tree) (s : SemResults) :
    AnalysisStats :=
  { lexicalErrors := orZero r.lexicalErrors,
    syntaxErrors := orZero r.syntaxErrors,
    semanticErrors := orZero s.errorCount,
    warnings := orZero s.warningCount,
    linesOfCode := linesOfCode code,
    tokens := orZero r.tokenCount,
    characters := jsLength code }

/-! ## Concrete stages and states used in the examples -/

/-- A quadruple `t0 := 1 + 2`. -/
def sampleQuad : Quadruple :=
  { op := "+", arg1 := .num ⟨1, by decide⟩, arg2 := .num ⟨2, by decide⟩,
    res := .str "t0" }

/-- A quadruple `x := 5`. -/
def earlierQuad : Quadruple :=
  { op := "=", arg1 := .num ⟨5, by decide⟩, arg2 := .null, res := .str "x" }

/-- A component state left by an earlier run that generated one quadruple. -/
def earlierState : HostState :=
  { lexicalResult := "lexico anterior", syntacticResult := "sintactico anterior",
    semanticResult := "semantico anterior",
    intermediateCode := [earlierQuad], optimizedCode := [earlierQuad],
    analysisStats := some
      { lexicalErrors := 0, syntaxErrors := 0, semanticErrors := 0, warnings := 0,
        linesOfCode := 9, tokens := 40, characters := 120 },
    isAnalyzing := false }

/-- Results of the first stage with a tree (the tree `7`) and the given number of syntax
errors. -/
def sampleResults (syntaxErrors : Option Nat) : LexSyntaxResults Nat :=
  { lexicalResult := "lexico", syntacticResult := "sintactico", ast := some 7,
    lexicalErrors := some 0, syntaxErrors := syntaxErrors, tokenCount := some 3 }

/-- Stages that all return: one quadruple is generated and the optimizer returns its
input. -/
def sampleStages (syntaxErrors : Option Nat) : Stages Nat :=
  { analyzeLexicalSyntactic := fun _ => .ok (sampleResults syntaxErrors),
    analyzeSemantics := fun _ =>
      .ok { result := "semantico", errorCount := some 1, warningCount := some 2 },
    generate := fun _ => .ok [sampleQuad],
    optimizeCode := fun q => .ok q }

/-- Stages whose first stage returns no tree, with the given number of syntax errors. -/
def noTreeStages (syntaxErrors : Option Nat) : Stages Nat :=
  { sampleStages syntaxErrors with
    analyzeLexicalSyntactic := fun _ =>
      .ok { sampleResults syntaxErrors with ast := none } }

/-- Stages whose semantic analyzer throws. -/
def semanticThrowsStages (syntaxErrors : Option Nat) : Stages Nat :=
  { sampleStages syntaxErrors with analyzeSemantics := fun _ => .error "boom" }

/-- Stages whose optimizer throws. -/
def optimizerThrowsStages : Stages Nat :=
  { sampleStages (some 0) with optimizeCode := fun _ => .error "boom" }

/-- Stages for the empty text: no token, no error, no quadruple. -/
def emptyTextStages : Stages Nat :=
  { analyzeLexicalSyntactic := fun _ =>
      .ok { lexicalResult := "", syntacticResult := "", ast := some 0,
            lexicalErrors := some 0, syntaxErrors := some 0, tokenCount := some 0 },
    analyzeSemantics := fun _ => .ok { result := "", errorCount := some 0, warningCount := some 0 },
    generate := fun _ => .ok [],
    optimizeCode := fun q => .ok q }

/-! ## The table of quadruples -/

/-- A rendered element tree: a text, or an element with its tag, its `className` and its
children. -/
inductive Node where
  | text (s : String)
  | element (tag : String) (className : String) (children : List Node)

mutual
/-- The text shown by a node: the texts below it, in document order. -/
def Node.textContent : Node → String
  | .text s => s
  | .element _ _ children => Node.textContentList children
/-- The text shown by a list of nodes. -/
def Node.textContentList : List Node → String
  | [] => ""
  | n :: ns => n.textContent ++ Node.textContentList ns
end

mutual
/-- The elements with the given tag in a node, itself included, in document order. -/
def Node.byTag (tag : String) : Node → List Node
  | .text _ => []
  | .element t c children =>
    (if t = tag then [.element t c children] else []) ++ Node.byTagList tag children
/-- The elements with the given tag in a list of nodes. -/
def Node.byTagList (tag : String) : List Node → List Node
  | [] => []
  | n :: ns => n.byTag tag ++ Node.byTagList tag ns
end

/-- The value of `String(v)` for the value of a slot: the name of `null`, `undefined`,
`true` and `false`, a string itself, the decimal form of a safe integer (with a leading `-`
when it is negative), and for any other value the string by which it is given. -/
def jsString : QValue → String
  | .null => "null"
  | .undefined => "undefined"
  | .bool true => "true"
  | .bool false => "false"
  | .str s => s
  | .num n => toString n.val
  | .other shown => shown

/-- The row rendered by the callback `(row, i) => <tr key={i}>...</tr>` of `QuadrupleTable`;
the `key` of a row is not part of what is rendered.  The position `i` in an array is a safe
integer, shown in decimal form. -/
def quadrupleRow (row : Quadruple) (i : Nat) : Node :=
  .element "tr" "hover:bg-gray-50 transition-colors"
    [.element "td" "px-4 py-2 text-gray-500 font-mono text-xs" [.text (toString i)],
     .element "td"
       ("px-4 py-2 font-mono font-medium " ++
         (if row.op = "GOTO" ∨ row.op = "JUMP_IF_FALSE" then "text-blue-600"
          else if row.op = "LABEL" then "text-green-600"
          else "text-gray-800"))
       [.text row.op],
     .element "td" "px-4 py-2 font-mono text-gray-700"
       [.text (if row.arg1 ≠ .null then jsString row.arg1 else "-")],
     .element "td" "px-4 py-2 font-mono text-gray-700"
       [.text (if row.arg2 ≠ .null then jsString row.arg2 else "-")],
     .element "td" "px-4 py-2 font-mono text-purple-600"
       [.text (if row.res ≠ .null then jsString row.res else "-")]]

/-- The component `QuadrupleTable({ data, emptyMessage })`; `data` is `none` when it is
absent (`null`/`undefined`). -/
def QuadrupleTable (data : Option (List Quadruple)) (emptyMessage : String) : Node :=
  match data with
  | none =>
    .element "div" "text-gray-500 italic text-center py-8" [.text emptyMessage]
  | some data =>
    if data.length = 0 then
      .element "div" "text-gray-500 italic text-center py-8" [.text emptyMessage]
    else
      .element "div" "overflow-auto border border-gray-200 rounded-lg"
        [.element "table" "w-full text-sm text-left"
          [.element "thead" "text-xs uppercase bg-gray-50 text-gray-700 border-b"
            [.element "tr" ""
              [.element "th" "px-4 py-3 font-medium" [.text "#"],
               .element "th" "px-4 py-3 font-medium" [.text "Operación"],
               .element "th" "px-4 py-3 font-medium" [.text "Argumento 1"],
               .element "th" "px-4 py-3 font-medium" [.text "Argumento 2"],
               .element "th" "px-4 py-3 font-medium" [.text "Resultado"]]],
           .element "tbody" "divide-y divide-gray-200"
            (data.enum.map fun (i, row) => quadrupleRow row i)]]

/-- The rows of the body of a rendered table. -/
def bodyRows (n : Node) : List Node :=
  (n.byTag "tbody").flatMap (Node.byTag "tr")

/-- The texts shown by the cells of a row. -/
def cellTexts (row : Node) : List String :=
  (row.byTag "td").map Node.textContent


/-! ## The optimizer of the spec -/

/-- Modelled from the spec: what section 4.5 of the spec leaves open about the optimizer
(`optimizeCode` of `optimizer.js`, which is not part of the source at hand): the value folded
for a binary/unary quadruple whose operands are literal constants (`none` for every other
quadruple), the operator code of a direct assignment, the operator codes of `return`, and
how many more rounds of the passes are allowed after the first while a round changes the
sequence. -/
structure OptimizerChoices where
  foldValue : Quadruple → Option QValue
  assignOp : String
  isReturn : String → Bool
  extraRounds : Nat

/-- Modelled from the spec: constant folding of `optimizer.js`.  A quadruple whose operands
are literal constants is replaced by a direct literal-assignment quadruple with the folded
value and the same result slot; no other quadruple is touched. -/
def foldConstants (c : OptimizerChoices) (quads : List Quadruple) : List Quadruple :=
  quads.map fun q =>
    match c.foldValue q with
    | some v => { op := c.assignOp, arg1 := v, arg2 := .null, res := q.res }
    | none => q

/-- Modelled from the spec: the instruction that the label `l` immediately precedes, for
the jump-chain collapsing of `optimizer.js`: the quadruple after the first `LABEL` whose
result slot holds `l`. -/
def afterLabel (l : QValue) : List Quadruple → Option Quadruple
  | [] => none
  | q :: rest => if q.op = "LABEL" ∧ q.res = l then rest.head? else afterLabel l rest

/-- Modelled from the spec: the final target of a jump to `l` in the jump-chain collapsing
of `optimizer.js`: while the label immediately precedes a `GOTO`, the target is that
`GOTO`'s destination.  At most `fuel` links are followed, so that a cycle of jumps ends. -/
def finalTarget (quads : List Quadruple) : Nat → QValue → QValue
  | 0, l => l
  | fuel + 1, l =>
    match afterLabel l quads with
    | some q => if q.op = "GOTO" then finalTarget quads fuel q.arg1 else l
    | none => l

/-- Modelled from the spec: jump-chain collapsing of `optimizer.js`.  Every `GOTO` is
rewritten to its final target; no other quadruple is touched. -/
def collapseJumps (quads : List Quadruple) : List Quadruple :=
  quads.map fun q =>
    if q.op = "GOTO" then { q with arg1 := finalTarget quads quads.length q.arg1 } else q

/-- Modelled from the spec: the labels targeted by some jump, for the unreachable-code
elimination of `optimizer.js`: `arg1` of every `GOTO` and `arg2` of every `JUMP_IF_FALSE`. -/
def jumpTargets (quads : List Quadruple) : List QValue :=
  quads.filterMap fun q =>
    if q.op = "GOTO" then some q.arg1
    else if q.op = "JUMP_IF_FALSE" then some q.arg2
    else none

/-- Modelled from the spec: the scan of the unreachable-code elimination of `optimizer.js`.
`dead` holds after an unconditional `GOTO` or a `return`, until the next `LABEL` that is in
`targets`; the quadruples met while it holds are removed. -/
def dropUnreachable (c : OptimizerChoices) (targets : List QValue) :
    Bool → List Quadruple → List Quadruple
  | _, [] => []
  | dead, q :: rest =>
    if dead ∧ ¬ (q.op = "LABEL" ∧ q.res ∈ targets) then
      dropUnreachable c targets true rest
    else
      q :: dropUnreachable c targets (q.op = "GOTO" || c.isReturn q.op) rest

/-- Modelled from the spec: unreachable-code elimination of `optimizer.js`. -/
def removeUnreachable (c : OptimizerChoices) (quads : List Quadruple) : List Quadruple :=
  dropUnreachable c (jumpTargets quads) false quads

/-- Modelled from the spec: the labels removed by the redundant label merging of
`optimizer.js`, each with the label that survives: in a run of consecutive `LABEL`
quadruples the first survives and the others are removed.  `surviving` is the label of the
run the scan is in, if it is in one. -/
def mergedLabels : Option QValue → List Quadruple → List (QValue × QValue)
  | _, [] => []
  | surviving, q :: rest =>
    if q.op = "LABEL" then
      match surviving with
      | some s => (q.res, s) :: mergedLabels (some s) rest
      | none => mergedLabels (some q.res) rest
    else mergedLabels none rest

/-- Modelled from the spec: the sequence without the labels removed by the redundant label
merging of `optimizer.js`.  `afterLabel` holds when the quadruple before is a `LABEL`. -/
def dropMergedLabels : Bool → List Quadruple → List Quadruple
  | _, [] => []
  | afterLabel, q :: rest =>
    if q.op = "LABEL" then
      if afterLabel then dropMergedLabels true rest else q :: dropMergedLabels true rest
    else q :: dropMergedLabels false rest

/-- Modelled from the spec: the target that replaces `l` after the redundant label merging
of `optimizer.js`: the surviving label when `l` was removed, else `l`. -/
def retarget (merged : List (QValue × QValue)) (l : QValue) : QValue :=
  match merged.find? fun p => p.1 = l with
  | some p => p.2
  | none => l

/-- Modelled from the spec: redundant label merging of `optimizer.js`.  Consecutive `LABEL`
quadruples are merged into the first one, and the targets of the jumps (`arg1` of `GOTO`,
`arg2` of `JUMP_IF_FALSE`) that reference a removed label are rewritten to the surviving
one. -/
def mergeLabels (quads : List Quadruple) : List Quadruple :=
  (dropMergedLabels false quads).map fun q =>
    if q.op = "GOTO" then { q with arg1 := retarget (mergedLabels none quads) q.arg1 }
    else if q.op = "JUMP_IF_FALSE" then
      { q with arg2 := retarget (mergedLabels none quads) q.arg2 }
    else q

/-- Modelled from the spec: one round of the passes of `optimizer.js`, in the order of
section 4.5 of the spec. -/
def optimizeRound (c : OptimizerChoices) (quads : List Quadruple) : List Quadruple :=
  mergeLabels (removeUnreachable c (collapseJumps (foldConstants c quads)))

/-- Modelled from the spec: the rounds of `optimizer.js`, repeated until a round changes
nothing or `rounds` rounds have been made. -/
def optimizeRounds (c : OptimizerChoices) : Nat → List Quadruple → List Quadruple
  | 0, quads => quads
  | rounds + 1, quads =>
    if optimizeRound c quads = quads then quads
    else optimizeRounds c rounds (optimizeRound c quads)

/-- Modelled from the spec: the function `optimize(quads)` of section 4.5 of the spec, which
`optimizeCode` of `optimizer.js` implements. -/
def optimize (c : OptimizerChoices) (quads : List Quadruple) : List Quadruple :=
  optimizeRounds c (c.extraRounds + 1) quads

/-- Choices for the examples: a sum of two safe integers is folded when it is a safe
integer, the assignment is `=` and the return is `RETURN`. -/
def sampleChoices : OptimizerChoices :=
  { foldValue := fun q =>
      match q.op, q.arg1, q.arg2 with
      | "+", .num a, .num b =>
        if h : (a.val + b.val).natAbs < 9007199254740992 then some (.num ⟨a.val + b.val, h⟩)
        else none
      | _, _, _ => none,
    assignOp := "=",
    isReturn := fun op => op == "RETURN",
    extraRounds := 3 }

/-- A sequence with a sum of constants, a chain of jumps, unreachable code and two
consecutive labels. -/
def sampleProgram : List Quadruple :=
  [ { op := "+", arg1 := .num ⟨1, by decide⟩, arg2 := .num ⟨2, by decide⟩,
      res := .str "t0" },
    { op := "GOTO", arg1 := .str "L1", arg2 := .null, res := .null },
    { op := "=", arg1 := .num ⟨7, by decide⟩, arg2 := .null, res := .str "y" },
    { op := "LABEL", arg1 := .null, arg2 := .null, res := .str "L1" },
    { op := "GOTO", arg1 := .str "L2", arg2 := .null, res := .null },
    { op := "LABEL", arg1 := .null, arg2 := .null, res := .str "L2" },
    { op := "LABEL", arg1 := .null, arg2 := .null, res := .str "L3" },
    { op := "=", arg1 := .str "t0", arg2 := .null, res := .str "x" } ]

/-- Modelled from the spec: the stage `optimizeCode` of `optimizer.js`.  It returns
`optimize quads`, unless a stage-internal unexpected failure occurs (section 7 of the spec:
a fatal condition for the run, which the host catches), in which case it throws;
`failure quads` is the message of the failure of the stage on `quads`, if it fails. -/
def optimizeCodeModel (c : OptimizerChoices) (failure : List Quadruple → Option String)
    (quads : List Quadruple) : Except String (List Quadruple) :=
  match failure quads with
  | some m => .error m
  | none => .ok (optimize c quads)

/-- Stages whose generator returns `sampleProgram` and whose optimizer is the one of the
spec, without a failure. -/
def optimizerModelStages : Stages Nat :=
  { sampleStages (some 0) with
    generate := fun _ => .ok sampleProgram,
    optimizeCode := optimizeCodeModel sampleChoices fun _ => none }

/-- Stages whose generator returns one quadruple and whose optimizer is the one of the spec,
with a failure on every sequence. -/
def optimizerModelFailsStages : Stages Nat :=
  { sampleStages (some 0) with
    optimizeCode := optimizeCodeModel sampleChoices fun _ => some "boom" }

/-- A component state left by an earlier run that generated two quadruples. -/
def twoQuadState : HostState :=
  { earlierState with
    intermediateCode := [earlierQuad, earlierQuad],
    optimizedCode := [earlierQuad, earlierQuad] }

/-- A record whose slots hold a number shown as `1e+21`, `undefined` and `true`. -/
def mixedQuad : Quadruple :=
  { op := "CALL", arg1 := .other "1e+21", arg2 := .undefined, res := .bool true }

/-- A record whose first operand is the string `-`. -/
def dashQuad : Quadruple :=
  { op := "=", arg1 := .str "-", arg2 := .null, res := .str "x" }

/-! ## The steps of a computation -/

@[simp] theorem exec_pure {Tree α : Type} (a : α) (w : World Tree) :
    exec (pure a : Run Tree α) w = (.ok a, w) := rfl

@[simp] theorem exec_bind {Tree α β : Type} (x : Run Tree α) (f : α → Run Tree β)
    (w : World Tree) :
    exec (x >>= f) w =
      (match exec x w with
       | (.ok a, w1) => exec (f a) w1
       | (.error e, w1) => (.error e, w1)) := by
  unfold exec
  simp only [ExceptT.run, bind, ExceptT.bind, ExceptT.mk, StateT.bind, StateT.run,
    ExceptT.bindCont]
  rcases x w with ⟨a | a, w1⟩ <;> rfl

@[simp] theorem exec_tryCatch {Tree α : Type} (x : Run Tree α) (f : String → Run Tree α)
    (w : World Tree) :
    exec (tryCatch x f) w =
      (match exec x w with
       | (.ok a, w1) => (.ok a, w1)
       | (.error e, w1) => exec (f e) w1) := by
  unfold exec
  simp only [tryCatch, tryCatchThe, MonadExceptOf.tryCatch, ExceptT.tryCatch, ExceptT.run,
    bind, ExceptT.mk, StateT.bind, StateT.run]
  rcases x w with ⟨a | a, w1⟩ <;> rfl

@[simp] theorem exec_tryFinally {Tree α : Type} (x : Run Tree α) (f : Run Tree Unit)
    (w : World Tree) :
    exec (tryFinally x f) w =
      (match exec x w with
       | (r, w1) =>
         (match exec f w1 with
          | (.ok _, w2) => (r, w2)
          | (.error e, w2) => (.error e, w2))) := by
  unfold exec
  simp only [tryFinally, MonadFinally.tryFinally', Functor.map, ExceptT.run, bind,
    ExceptT.mk, StateT.bind, StateT.run, StateT.map, ExceptT.map]
  rcases x w with ⟨a | a, w1⟩ <;> simp only [] <;> rcases f w1 with ⟨b | b, w2⟩ <;> rfl

@[simp] theorem exec_ite {Tree α : Type} (c : Prop) [Decidable c] (x y : Run Tree α)
    (w : World Tree) :
    exec (if c then x else y) w = if c then exec x w else exec y w := by
  split <;> rfl

@[simp] theorem exec_setHost {Tree : Type} (f : HostState → HostState) (w : World Tree) :
    exec (setHost f) w = (.ok (), { w with host := f w.host }) := rfl

@[simp] theorem exec_setTimeout {Tree : Type} (d : Nat) (w : World Tree) :
    exec (setTimeout d) w = (.ok (), { w with timers := w.timers ++ [d] }) := rfl

@[simp] theorem exec_callStage_ok {Tree α : Type} (c : Call Tree) (a : α) (w : World Tree) :
    exec (callStage c (.ok a)) w = (.ok a, { w with calls := w.calls ++ [c] }) := rfl

@[simp] theorem exec_callStage_error {Tree α : Type} (c : Call Tree) (m : String)
    (w : World Tree) :
    exec (callStage c (.error m : Except String α)) w =
      (.error m, { w with calls := w.calls ++ [c] }) := rfl

/-! ## The seven paths of a run -/

/-- The first stage throws. -/
theorem run_lexer_throws {Tree : Type} (S : Stages Tree) (code : String) (silent : Bool)
    (h : HostState) (m : String) (hl : S.analyzeLexicalSyntactic code = .error m) :
    runAnalysis S code silent h =
      (.ok (),
       { host := failed m (begun silent h),
         calls := [.analyzeLexicalSyntactic code],
         timers := timersOf silent }) := by
  cases silent <;>
    simp [runAnalysis, handleRunAnalysis, setLexicalResult, setSyntacticResult,
      setSemanticResult, setIsAnalyzing, hl, World.start, failed, begun, timersOf]

/-- The first stage returns no tree. -/
theorem run_no_tree {Tree : Type} (S : Stages Tree) (code : String) (silent : Bool)
    (h : HostState) (r : LexSyntaxResults Tree)
    (hl : S.analyzeLexicalSyntactic code = .ok r) (ht : r.ast = none) :
    runAnalysis S code silent h =
      (.ok (),
       { host :=
           { begun silent h with
             lexicalResult := r.lexicalResult,
             syntacticResult := r.syntacticResult,
             analysisStats :=
               some (statsOf code r { result := "", errorCount := some 0, warningCount := some 0 }) },
         calls := [.analyzeLexicalSyntactic code],
         timers := timersOf silent }) := by
  cases silent <;>
    simp [runAnalysis, handleRunAnalysis, setLexicalResult, setSyntacticResult,
      setSemanticResult, setAnalysisStats, setIsAnalyzing, hl, ht, World.start, begun,
      timersOf, statsOf]

/-- The semantic analyzer throws. -/
theorem run_semantics_throws {Tree : Type} (S : Stages Tree) (code : String) (silent : Bool)
    (h : HostState) (r : LexSyntaxResults Tree) (t : Tree) (m : String)
    (hl : S.analyzeLexicalSyntactic code = .ok r) (ht : r.ast = some t)
    (hs : S.analyzeSemantics t = .error m) :
    runAnalysis S code silent h =
      (.ok (),
       { host := failed m (begun silent h),
         calls := [.analyzeLexicalSyntactic code, .analyzeSemantics t],
         timers := timersOf silent }) := by
  cases silent <;>
    simp [runAnalysis, handleRunAnalysis, setLexicalResult, setSyntacticResult,
      setSemanticResult, setIsAnalyzing, hl, ht, hs, World.start, failed, begun, timersOf]

/-- The parser reported syntax errors: both sequences are emptied. -/
theorem run_syntax_errors {Tree : Type} (S : Stages Tree) (code : String) (silent : Bool)
    (h : HostState) (r : LexSyntaxResults Tree) (t : Tree) (s : SemResults)
    (hl : S.analyzeLexicalSyntactic code = .ok r) (ht : r.ast = some t)
    (hs : S.analyzeSemantics t = .ok s) (h0 : r.syntaxErrors ≠ some 0) :
    runAnalysis S code silent h =
      (.ok (),
       { host :=
           { begun silent h with
             lexicalResult := r.lexicalResult,
             syntacticResult := r.syntacticResult,
             semanticResult := s.result,
             intermediateCode := [],
             optimizedCode := [],
             analysisStats := some (statsOf code r s) },
         calls := [.analyzeLexicalSyntactic code, .analyzeSemantics t],
         timers := timersOf silent }) := by
  cases silent <;>
    simp [runAnalysis, handleRunAnalysis, setLexicalResult, setSyntacticResult,
      setSemanticResult, setIntermediateCode, setOptimizedCode, setAnalysisStats,
      setIsAnalyzing, hl, ht, hs, h0, World.start, begun, timersOf, statsOf]

/-- The quadruple generator throws. -/
theorem run_generator_throws {Tree : Type} (S : Stages Tree) (code : String) (silent : Bool)
    (h : HostState) (r : LexSyntaxResults Tree) (t : Tree) (s : SemResults) (m : String)
    (hl : S.analyzeLexicalSyntactic code = .ok r) (ht : r.ast = some t)
    (hs : S.analyzeSemantics t = .ok s) (h0 : r.syntaxErrors = some 0)
    (hg : S.generate t = .error m) :
    runAnalysis S code silent h =
      (.ok (),
       { host := failed m (begun silent h),
         calls := [.analyzeLexicalSyntactic code, .analyzeSemantics t, .generate t],
         timers := timersOf silent }) := by
  cases silent <;>
    simp [runAnalysis, handleRunAnalysis, setLexicalResult, setSyntacticResult,
      setSemanticResult, setIsAnalyzing, hl, ht, hs, h0, hg, World.start, failed, begun,
      timersOf]

/-- The optimizer throws: the generated sequence has been stored. -/
theorem run_optimizer_throws {Tree : Type} (S : Stages Tree) (code : String) (silent : Bool)
    (h : HostState) (r : LexSyntaxResults Tree) (t : Tree) (s : SemResults)
    (q : List Quadruple) (m : String)
    (hl : S.analyzeLexicalSyntactic code = .ok r) (ht : r.ast = some t)
    (hs : S.analyzeSemantics t = .ok s) (h0 : r.syntaxErrors = some 0)
    (hg : S.generate t = .ok q) (ho : S.optimizeCode q = .error m) :
    runAnalysis S code silent h =
      (.ok (),
       { host := failed m { begun silent h with intermediateCode := q },
         calls := [.analyzeLexicalSyntactic code, .analyzeSemantics t, .generate t,
                   .optimizeCode q],
         timers := timersOf silent }) := by
  cases silent <;>
    simp [runAnalysis, handleRunAnalysis, setLexicalResult, setSyntacticResult,
      setSemanticResult, setIntermediateCode, setIsAnalyzing, hl, ht, hs, h0, hg, ho,
      World.start, failed, begun, timersOf]

/-- Every stage returns and code is generated. -/
theorem run_generates {Tree : Type} (S : Stages Tree) (code : String) (silent : Bool)
    (h : HostState) (r : LexSyntaxResults Tree) (t : Tree) (s : SemResults)
    (q o : List Quadruple)
    (hl : S.analyzeLexicalSyntactic code = .ok r) (ht : r.ast = some t)
    (hs : S.analyzeSemantics t = .ok s) (h0 : r.syntaxErrors = some 0)
    (hg : S.generate t = .ok q) (ho : S.optimizeCode q = .ok o) :
    runAnalysis S code silent h =
      (.ok (),
       { host :=
           { begun silent h with
             lexicalResult := r.lexicalResult,
             syntacticResult := r.syntacticResult,
             semanticResult := s.result,
             intermediateCode := q,
             optimizedCode := o,
             analysisStats := some (statsOf code r s) },
         calls := [.analyzeLexicalSyntactic code, .analyzeSemantics t, .generate t,
                   .optimizeCode q],
         timers := timersOf silent }) := by
  cases silent <;>
    simp [runAnalysis, handleRunAnalysis, setLexicalResult, setSyntacticResult,
      setSemanticResult, setIntermediateCode, setOptimizedCode, setAnalysisStats,
      setIsAnalyzing, hl, ht, hs, h0, hg, ho, World.start, begun, timersOf, statsOf]

/-- Every run takes one of the seven paths. -/
theorem path_exists {Tree : Type} (S : Stages Tree) (code : String) : Path S code := by
  rcases hl : S.analyzeLexicalSyntactic code with m | r
  · exact .lexerThrows m hl
  · rcases ht : r.ast with _ | t
    · exact .noTree r hl ht
    · rcases hs : S.analyzeSemantics t with m | s
      · exact .semanticsThrows r t m hl ht hs
      · by_cases h0 : r.syntaxErrors = some 0
        · rcases hg : S.generate t with m | q
          · exact .generatorThrows r t s m hl ht hs h0 hg
          · rcases ho : S.optimizeCode q with m | o
            · exact .optimizerThrows r t s q m hl ht hs h0 hg ho
            · exact .generates r t s q o hl ht hs h0 hg ho
        · exact .syntaxErrors r t s hl ht hs h0

/-! ## Runs with and without a failure -/

/-- The component state after a run in which the invocation `c` throws. -/
theorem state_of_throwing_call {Tree : Type} (S : Stages Tree) (code : String)
    (silent : Bool) (h : HostState) (c : Call Tree) (m : String)
    (hc : c ∈ callsOf S code silent h) (hthrow : S.throwsWith c m) :
    stateAfter S code silent h =
      failed m
        (match c with
         | .optimizeCode q => { begun silent h with intermediateCode := q }
         | _ => begun silent h) := by
  rcases path_exists S code with ⟨m1, hl⟩ | ⟨r, hl, ht⟩ | ⟨r, t, m1, hl, ht, hs⟩ |
    ⟨r, t, s, hl, ht, hs, h0⟩ | ⟨r, t, s, m1, hl, ht, hs, h0, hg⟩ |
    ⟨r, t, s, q, m1, hl, ht, hs, h0, hg, ho⟩ | ⟨r, t, s, q, o, hl, ht, hs, h0, hg, ho⟩
  · rw [callsOf, run_lexer_throws S code silent h m1 hl] at hc
    rw [stateAfter, run_lexer_throws S code silent h m1 hl]
    simp at hc
    subst hc
    simp [Stages.throwsWith, hl] at hthrow
    simp [hthrow]
  · rw [callsOf, run_no_tree S code silent h r hl ht] at hc
    simp at hc
    subst hc
    simp [Stages.throwsWith, hl] at hthrow
  · rw [callsOf, run_semantics_throws S code silent h r t m1 hl ht hs] at hc
    rw [stateAfter, run_semantics_throws S code silent h r t m1 hl ht hs]
    simp at hc
    rcases hc with rfl | rfl
    · simp [Stages.throwsWith, hl] at hthrow
    · simp [Stages.throwsWith, hs] at hthrow
      simp [hthrow]
  · rw [callsOf, run_syntax_errors S code silent h r t s hl ht hs h0] at hc
    simp at hc
    rcases hc with rfl | rfl
    · simp [Stages.throwsWith, hl] at hthrow
    · simp [Stages.throwsWith, hs] at hthrow
  · rw [callsOf, run_generator_throws S code silent h r t s m1 hl ht hs h0 hg] at hc
    rw [stateAfter, run_generator_throws S code silent h r t s m1 hl ht hs h0 hg]
    simp at hc
    rcases hc with rfl | rfl | rfl
    · simp [Stages.throwsWith, hl] at hthrow
    · simp [Stages.throwsWith, hs] at hthrow
    · simp [Stages.throwsWith, hg] at hthrow
      simp [hthrow]
  · rw [callsOf, run_optimizer_throws S code silent h r t s q m1 hl ht hs h0 hg ho] at hc
    rw [stateAfter, run_optimizer_throws S code silent h r t s q m1 hl ht hs h0 hg ho]
    simp at hc
    rcases hc with rfl | rfl | rfl | rfl
    · simp [Stages.throwsWith, hl] at hthrow
    · simp [Stages.throwsWith, hs] at hthrow
    · simp [Stages.throwsWith, hg] at hthrow
    · simp [Stages.throwsWith, ho] at hthrow
      simp [hthrow]
  · rw [callsOf, run_generates S code silent h r t s q o hl ht hs h0 hg ho] at hc
    simp at hc
    rcases hc with rfl | rfl | rfl | rfl
    · simp [Stages.throwsWith, hl] at hthrow
    · simp [Stages.throwsWith, hs] at hthrow
    · simp [Stages.throwsWith, hg] at hthrow
    · simp [Stages.throwsWith, ho] at hthrow

/-- The results of the stages in a run in which no stage throws. -/
theorem stages_of_no_throw {Tree : Type} (S : Stages Tree) (code : String)
    (silent : Bool) (h : HostState) (hn : NoStageThrows S code silent h) :
    ∃ r, S.analyzeLexicalSyntactic code = .ok r ∧
      ∀ t, r.ast = some t →
        ∃ s, S.analyzeSemantics t = .ok s ∧
          (r.syntaxErrors = some 0 →
            ∃ q o, S.generate t = .ok q ∧ S.optimizeCode q = .ok o) := by
  rcases path_exists S code with ⟨m1, hl⟩ | ⟨r, hl, ht⟩ | ⟨r, t, m1, hl, ht, hs⟩ |
    ⟨r, t, s, hl, ht, hs, h0⟩ | ⟨r, t, s, m1, hl, ht, hs, h0, hg⟩ |
    ⟨r, t, s, q, m1, hl, ht, hs, h0, hg, ho⟩ | ⟨r, t, s, q, o, hl, ht, hs, h0, hg, ho⟩
  · exact absurd hl (hn (.analyzeLexicalSyntactic code)
      (by rw [callsOf, run_lexer_throws S code silent h m1 hl]; simp) m1)
  · exact ⟨r, hl, fun t h1 => by rw [ht] at h1; cases h1⟩
  · exact absurd hs (hn (.analyzeSemantics t)
      (by rw [callsOf, run_semantics_throws S code silent h r t m1 hl ht hs]; simp) m1)
  · refine ⟨r, hl, fun t1 h1 => ?_⟩
    obtain rfl : t = t1 := by rw [ht] at h1; exact Option.some.inj h1
    exact ⟨s, hs, fun h2 => absurd h2 h0⟩
  · exact absurd hg (hn (.generate t)
      (by rw [callsOf, run_generator_throws S code silent h r t s m1 hl ht hs h0 hg]; simp) m1)
  · exact absurd ho (hn (.optimizeCode q)
      (by rw [callsOf, run_optimizer_throws S code silent h r t s q m1 hl ht hs h0 hg ho]; simp)
      m1)
  · refine ⟨r, hl, fun t1 h1 => ?_⟩
    obtain rfl : t = t1 := by rw [ht] at h1; exact Option.some.inj h1
    exact ⟨s, hs, fun _ => ⟨q, o, hg, ho⟩⟩

/-! ## Facts on the primitives -/

theorem splitNewline_ne_nil (l : List Char) : splitNewline l ≠ [] := by
  cases l with
  | nil => simp [splitNewline]
  | cons c cs =>
    unfold splitNewline
    split
    · simp
    · split <;> simp

/-- The text is split into one piece more than it has newline characters. -/
theorem splitNewline_length (l : List Char) :
    (splitNewline l).length = l.count '\n' + 1 := by
  induction l with
  | nil => simp [splitNewline]
  | cons c cs ih =>
    unfold splitNewline
    by_cases hc : c = '\n'
    · simp [hc, ih]
    · rw [if_neg hc]
      cases hsp : splitNewline cs with
      | nil => exact absurd hsp (splitNewline_ne_nil cs)
      | cons l ls =>
        rw [hsp] at ih
        simp [List.count_cons, hc] at ih ⊢
        exact ih

theorem linesOfCode_eq (code : String) :
    linesOfCode code = code.toList.count '\n' + 1 :=
  splitNewline_length code.toList

/-- On a counter, `x || 0` is the counter, or `0` when it is missing. -/
theorem orZero_eq_getD (x : Option Nat) : orZero x = x.getD 0 := by
  cases x with
  | none => rfl
  | some n =>
    by_cases hn : n = 0
    · simp [orZero, hn]
    · simp [orZero, hn]

/-- The result of a stage that returns is unique. -/
theorem ok_unique {α : Type} {x : Except String α} {a b : α} (ha : x = .ok a)
    (hb : x = .ok b) : a = b := by
  rw [ha] at hb
  exact Except.ok.inj hb

/-! ## Facts on the sample stages -/

/-- No stage throws in a run of the sample stages without syntax error. -/
theorem sampleStages_no_throw (code : String) (h : HostState) :
    NoStageThrows (sampleStages (some 0)) code true h := by
  intro c hc m
  rw [callsOf, run_generates _ _ _ _ (sampleResults (some 0)) 7 _ [sampleQuad] [sampleQuad]
    rfl rfl rfl rfl rfl rfl] at hc
  simp at hc
  rcases hc with rfl | rfl | rfl | rfl <;> simp [Stages.throwsWith, sampleStages]

/-- The semantic analyzer is invoked and throws in a run of `semanticThrowsStages`. -/
theorem semanticThrowsStages_throws (c : Option Nat) (h : HostState) :
    Call.analyzeSemantics 7 ∈ callsOf (semanticThrowsStages c) "x" true h ∧
      (semanticThrowsStages c).throwsWith (.analyzeSemantics 7) "boom" := by
  refine ⟨?_, rfl⟩
  rw [callsOf, run_semantics_throws _ _ _ _ _ 7 "boom" rfl rfl rfl]
  simp

/-- The optimizer is invoked and throws in a run of `optimizerThrowsStages`. -/
theorem optimizerThrowsStages_throws (h : HostState) :
    Call.optimizeCode [sampleQuad] ∈ callsOf optimizerThrowsStages "x" true h ∧
      optimizerThrowsStages.throwsWith (.optimizeCode [sampleQuad]) "boom" := by
  refine ⟨?_, rfl⟩
  rw [callsOf, run_optimizer_throws _ _ _ _ _ 7 _ [sampleQuad] "boom" rfl rfl rfl rfl rfl rfl]
  simp

/-! ## The gate of the generator (C1, C2) -/

/-- C1, counterexample: the parser reports exactly 0 syntax errors and returns no tree; the
quadruple generator is not invoked, so "invoked if and only if `syntaxErrors` is 0" fails. -/
theorem generator_gate_counterexample :
    (noTreeStages (some 0)).analyzeLexicalSyntactic "x" =
        .ok { sampleResults (some 0) with ast := none } ∧
      ¬ ((∃ t, Call.generate t ∈ callsOf (noTreeStages (some 0)) "x" true HostState.initial) ↔
          ({ sampleResults (some 0) with ast := none } : LexSyntaxResults Nat).syntaxErrors
            = some 0) := by
  refine ⟨rfl, fun hiff => ?_⟩
  obtain ⟨t, ht⟩ := hiff.mpr rfl
  rw [callsOf, run_no_tree _ _ _ _ _ rfl rfl] at ht
  simp at ht

/-- C1 (amended): when the first two stages return, the quadruple generator is invoked if and
only if the parser returned a tree and its `syntaxErrors` is exactly 0, whatever the semantic
analyzer returned; the optimizer is invoked if and only if, moreover, the generator returned
a sequence. -/
theorem generator_invoked_iff_tree_and_no_syntax_errors {Tree : Type} (S : Stages Tree)
    (code : String) (silent : Bool) (h : HostState) (r : LexSyntaxResults Tree)
    (hl : S.analyzeLexicalSyntactic code = .ok r)
    (hsem : ∀ t, r.ast = some t → ∃ s, S.analyzeSemantics t = .ok s) :
    ((∃ t, Call.generate t ∈ callsOf S code silent h) ↔
        (r.ast.isSome ∧ r.syntaxErrors = some 0)) ∧
      ((∃ q, Call.optimizeCode q ∈ callsOf S code silent h) ↔
        ∃ t q, r.ast = some t ∧ r.syntaxErrors = some 0 ∧ S.generate t = .ok q) := by
  rcases path_exists S code with ⟨m, hl1⟩ | ⟨r1, hl1, ht⟩ | ⟨r1, t, m, hl1, ht, hs⟩ |
    ⟨r1, t, s, hl1, ht, hs, h0⟩ | ⟨r1, t, s, m, hl1, ht, hs, h0, hg⟩ |
    ⟨r1, t, s, q, m, hl1, ht, hs, h0, hg, ho⟩ | ⟨r1, t, s, q, o, hl1, ht, hs, h0, hg, ho⟩
  · rw [hl] at hl1; cases hl1
  · obtain rfl : r = r1 := ok_unique hl hl1
    rw [callsOf, run_no_tree S code silent h r hl ht]
    simp [ht]
  · obtain rfl : r = r1 := ok_unique hl hl1
    obtain ⟨s, hs1⟩ := hsem t ht
    rw [hs] at hs1; cases hs1
  · obtain rfl : r = r1 := ok_unique hl hl1
    rw [callsOf, run_syntax_errors S code silent h r t s hl ht hs h0]
    simp [ht, h0]
  · obtain rfl : r = r1 := ok_unique hl hl1
    rw [callsOf, run_generator_throws S code silent h r t s m hl ht hs h0 hg]
    simp [ht, h0, hg]
  · obtain rfl : r = r1 := ok_unique hl hl1
    rw [callsOf, run_optimizer_throws S code silent h r t s q m hl ht hs h0 hg ho]
    simp [ht, h0, hg]
  · obtain rfl : r = r1 := ok_unique hl hl1
    rw [callsOf, run_generates S code silent h r t s q o hl ht hs h0 hg ho]
    simp [ht, h0, hg]

/-- C1 (amended), at the sample stages with a tree and one syntax error: neither the generator
nor the optimizer is invoked. -/
theorem generator_invoked_iff_tree_and_no_syntax_errors_witness :
    ((∃ t, Call.generate t ∈ callsOf (sampleStages (some 1)) "x" true HostState.initial) ↔
        ((sampleResults (some 1)).ast.isSome ∧ (sampleResults (some 1)).syntaxErrors = some 0)) ∧
      ((∃ q, Call.optimizeCode q ∈ callsOf (sampleStages (some 1)) "x" true HostState.initial) ↔
        ∃ t q, (sampleResults (some 1)).ast = some t ∧
          (sampleResults (some 1)).syntaxErrors = some 0 ∧
          (sampleStages (some 1)).generate t = .ok q) :=
  generator_invoked_iff_tree_and_no_syntax_errors (sampleStages (some 1)) "x" true
    HostState.initial (sampleResults (some 1)) rfl (fun _ _ => ⟨_, rfl⟩)

/-- C2, counterexample: the parser reports one syntax error; when it returns no tree, and
also when it returns a tree and the semantic analyzer throws, the two sequences left by the
earlier run are still held after the run. -/
theorem sequences_not_emptied_counterexample :
    ((noTreeStages (some 1)).analyzeLexicalSyntactic "x" =
        .ok { sampleResults (some 1) with ast := none } ∧
      (stateAfter (noTreeStages (some 1)) "x" true earlierState).intermediateCode =
        [earlierQuad] ∧
      (stateAfter (noTreeStages (some 1)) "x" true earlierState).optimizedCode =
        [earlierQuad]) ∧
    (semanticThrowsStages (some 1)).analyzeLexicalSyntactic "x" = .ok (sampleResults (some 1)) ∧
      (stateAfter (semanticThrowsStages (some 1)) "x" true earlierState).intermediateCode =
        [earlierQuad] ∧
      (stateAfter (semanticThrowsStages (some 1)) "x" true earlierState).optimizedCode =
        [earlierQuad] := by
  refine ⟨⟨rfl, ?_, ?_⟩, rfl, ?_, ?_⟩
  · rw [stateAfter, run_no_tree _ _ _ _ _ rfl rfl]; rfl
  · rw [stateAfter, run_no_tree _ _ _ _ _ rfl rfl]; rfl
  · rw [stateAfter, run_semantics_throws _ _ _ _ _ 7 "boom" rfl rfl rfl]; rfl
  · rw [stateAfter, run_semantics_throws _ _ _ _ _ 7 "boom" rfl rfl rfl]; rfl

/-- C2 (amended): in every run in which the parser returns a tree and reports `syntaxErrors`
different from 0, and the semantic analyzer returns, both sequences are empty after the run,
whatever they held before. -/
theorem sequences_emptied_on_syntax_errors {Tree : Type} (S : Stages Tree) (code : String)
    (silent : Bool) (h : HostState) (r : LexSyntaxResults Tree) (t : Tree) (s : SemResults)
    (hl : S.analyzeLexicalSyntactic code = .ok r) (ht : r.ast = some t)
    (hs : S.analyzeSemantics t = .ok s) (h0 : r.syntaxErrors ≠ some 0) :
    (stateAfter S code silent h).intermediateCode = [] ∧
      (stateAfter S code silent h).optimizedCode = [] := by
  rw [stateAfter, run_syntax_errors S code silent h r t s hl ht hs h0]
  exact ⟨rfl, rfl⟩

/-- C2 (amended), at the sample stages with one syntax error, from a state that holds
sequences of an earlier run. -/
theorem sequences_emptied_on_syntax_errors_witness :
    (stateAfter (sampleStages (some 1)) "x" true earlierState).intermediateCode = [] ∧
      (stateAfter (sampleStages (some 1)) "x" true earlierState).optimizedCode = [] :=
  sequences_emptied_on_syntax_errors (sampleStages (some 1)) "x" true earlierState
    (sampleResults (some 1)) 7 _ rfl rfl rfl (by decide)

/-! ## Dependence on the state left by earlier runs (C3) -/

/-- C3, counterexample: two runs on the same text, from the initial state and from a state
left by an earlier run.  When the parser returns no tree, the semantic reports, the
intermediate sequences and the optimized sequences differ; when the semantic analyzer throws,
the statistics, the intermediate sequences and the optimized sequences differ; when the
optimizer throws, the optimized sequences differ. -/
theorem prior_state_shows_counterexample :
    ((stateAfter (noTreeStages (some 0)) "x" true HostState.initial).semanticResult ≠
        (stateAfter (noTreeStages (some 0)) "x" true earlierState).semanticResult ∧
      (stateAfter (noTreeStages (some 0)) "x" true HostState.initial).intermediateCode ≠
        (stateAfter (noTreeStages (some 0)) "x" true earlierState).intermediateCode ∧
      (stateAfter (noTreeStages (some 0)) "x" true HostState.initial).optimizedCode ≠
        (stateAfter (noTreeStages (some 0)) "x" true earlierState).optimizedCode) ∧
    ((stateAfter (semanticThrowsStages (some 0)) "x" true HostState.initial).analysisStats ≠
        (stateAfter (semanticThrowsStages (some 0)) "x" true earlierState).analysisStats ∧
      (stateAfter (semanticThrowsStages (some 0)) "x" true HostState.initial).intermediateCode ≠
        (stateAfter (semanticThrowsStages (some 0)) "x" true earlierState).intermediateCode ∧
      (stateAfter (semanticThrowsStages (some 0)) "x" true HostState.initial).optimizedCode ≠
        (stateAfter (semanticThrowsStages (some 0)) "x" true earlierState).optimizedCode) ∧
    (stateAfter optimizerThrowsStages "x" true HostState.initial).optimizedCode ≠
      (stateAfter optimizerThrowsStages "x" true earlierState).optimizedCode := by
  refine ⟨⟨?_, ?_, ?_⟩, ⟨?_, ?_, ?_⟩, ?_⟩
  · rw [stateAfter, stateAfter, run_no_tree _ _ _ _ _ rfl rfl, run_no_tree _ _ _ _ _ rfl rfl]
    decide
  · rw [stateAfter, stateAfter, run_no_tree _ _ _ _ _ rfl rfl, run_no_tree _ _ _ _ _ rfl rfl]
    decide
  · rw [stateAfter, stateAfter, run_no_tree _ _ _ _ _ rfl rfl, run_no_tree _ _ _ _ _ rfl rfl]
    decide
  · rw [stateAfter, stateAfter, run_semantics_throws _ _ _ _ _ 7 "boom" rfl rfl rfl,
      run_semantics_throws _ _ _ _ _ 7 "boom" rfl rfl rfl]
    decide
  · rw [stateAfter, stateAfter, run_semantics_throws _ _ _ _ _ 7 "boom" rfl rfl rfl,
      run_semantics_throws _ _ _ _ _ 7 "boom" rfl rfl rfl]
    decide
  · rw [stateAfter, stateAfter, run_semantics_throws _ _ _ _ _ 7 "boom" rfl rfl rfl,
      run_semantics_throws _ _ _ _ _ 7 "boom" rfl rfl rfl]
    decide
  · rw [stateAfter, stateAfter,
      run_optimizer_throws _ _ _ _ _ 7 _ [sampleQuad] "boom" rfl rfl rfl rfl rfl rfl,
      run_optimizer_throws _ _ _ _ _ 7 _ [sampleQuad] "boom" rfl rfl rfl rfl rfl rfl]
    decide

/-- C3 (amended): for every source text and any two prior states, the two runs end with
identical lexical and syntactic reports; with identical semantic reports unless the
lexer/parser returns without a tree; with identical statistics whenever no stage throws;
with identical intermediate sequences whenever the lexer/parser returns a tree and no stage
other than the optimizer throws; and with identical optimized sequences whenever the
lexer/parser returns a tree and no stage throws. -/
theorem results_independent_of_prior_state {Tree : Type} (S : Stages Tree) (code : String)
    (silent : Bool) (h1 h2 : HostState) :
    ((stateAfter S code silent h1).lexicalResult = (stateAfter S code silent h2).lexicalResult ∧
      (stateAfter S code silent h1).syntacticResult =
        (stateAfter S code silent h2).syntacticResult) ∧
    ((∀ r, S.analyzeLexicalSyntactic code = .ok r → r.ast.isSome) →
      (stateAfter S code silent h1).semanticResult =
        (stateAfter S code silent h2).semanticResult) ∧
    (NoStageThrows S code silent h1 →
      (stateAfter S code silent h1).analysisStats =
        (stateAfter S code silent h2).analysisStats) ∧
    ∀ r t, S.analyzeLexicalSyntactic code = .ok r → r.ast = some t →
      ((∀ c ∈ callsOf S code silent h1, ∀ m, S.throwsWith c m → ∃ q, c = .optimizeCode q) →
        (stateAfter S code silent h1).intermediateCode =
          (stateAfter S code silent h2).intermediateCode) ∧
      (NoStageThrows S code silent h1 →
        (stateAfter S code silent h1).optimizedCode =
          (stateAfter S code silent h2).optimizedCode) := by
  rcases path_exists S code with ⟨m, hl⟩ | ⟨r1, hl, ht⟩ | ⟨r1, t1, m, hl, ht, hs⟩ |
    ⟨r1, t1, s, hl, ht, hs, h0⟩ | ⟨r1, t1, s, m, hl, ht, hs, h0, hg⟩ |
    ⟨r1, t1, s, q, m, hl, ht, hs, h0, hg, ho⟩ | ⟨r1, t1, s, q, o, hl, ht, hs, h0, hg, ho⟩
  · have hlog : Call.analyzeLexicalSyntactic code ∈ callsOf S code silent h1 := by
      rw [callsOf, run_lexer_throws S code silent h1 m hl]; simp
    refine ⟨?_, fun _ => ?_, fun hn => absurd hl (hn _ hlog m), fun r t hr => ?_⟩
    · simp [stateAfter, run_lexer_throws S code silent _ m hl, failed]
    · simp [stateAfter, run_lexer_throws S code silent _ m hl, failed]
    · rw [hl] at hr; cases hr
  · refine ⟨?_, fun htree => ?_, fun _ => ?_, fun r t hr hrt => ?_⟩
    · simp [stateAfter, run_no_tree S code silent _ r1 hl ht]
    · have := htree r1 hl
      rw [ht] at this; cases this
    · simp [stateAfter, run_no_tree S code silent _ r1 hl ht]
    · obtain rfl : r1 = r := ok_unique hl hr
      rw [ht] at hrt; cases hrt
  · have hlog : Call.analyzeSemantics t1 ∈ callsOf S code silent h1 := by
      rw [callsOf, run_semantics_throws S code silent h1 r1 t1 m hl ht hs]; simp
    refine ⟨?_, fun _ => ?_, fun hn => absurd hs (hn _ hlog m),
      fun r t _ _ => ⟨fun honly => ?_, fun hn => absurd hs (hn _ hlog m)⟩⟩
    · simp [stateAfter, run_semantics_throws S code silent _ r1 t1 m hl ht hs, failed]
    · simp [stateAfter, run_semantics_throws S code silent _ r1 t1 m hl ht hs, failed]
    · obtain ⟨q, hq⟩ := honly _ hlog m hs
      cases hq
  · refine ⟨?_, fun _ => ?_, fun _ => ?_, fun r t _ _ => ⟨fun _ => ?_, fun _ => ?_⟩⟩ <;>
      simp [stateAfter, run_syntax_errors S code silent _ r1 t1 s hl ht hs h0]
  · have hlog : Call.generate t1 ∈ callsOf S code silent h1 := by
      rw [callsOf, run_generator_throws S code silent h1 r1 t1 s m hl ht hs h0 hg]; simp
    refine ⟨?_, fun _ => ?_, fun hn => absurd hg (hn _ hlog m),
      fun r t _ _ => ⟨fun honly => ?_, fun hn => absurd hg (hn _ hlog m)⟩⟩
    · simp [stateAfter, run_generator_throws S code silent _ r1 t1 s m hl ht hs h0 hg, failed]
    · simp [stateAfter, run_generator_throws S code silent _ r1 t1 s m hl ht hs h0 hg, failed]
    · obtain ⟨q, hq⟩ := honly _ hlog m hg
      cases hq
  · have hlog : Call.optimizeCode q ∈ callsOf S code silent h1 := by
      rw [callsOf, run_optimizer_throws S code silent h1 r1 t1 s q m hl ht hs h0 hg ho]; simp
    refine ⟨?_, fun _ => ?_, fun hn => absurd ho (hn _ hlog m),
      fun r t _ _ => ⟨fun _ => ?_, fun hn => absurd ho (hn _ hlog m)⟩⟩
    · simp [stateAfter, run_optimizer_throws S code silent _ r1 t1 s q m hl ht hs h0 hg ho,
        failed]
    · simp [stateAfter, run_optimizer_throws S code silent _ r1 t1 s q m hl ht hs h0 hg ho,
        failed]
    · simp [stateAfter, run_optimizer_throws S code silent _ r1 t1 s q m hl ht hs h0 hg ho,
        failed]
  · refine ⟨?_, fun _ => ?_, fun _ => ?_, fun r t _ _ => ⟨fun _ => ?_, fun _ => ?_⟩⟩ <;>
      simp [stateAfter, run_generates S code silent _ r1 t1 s q o hl ht hs h0 hg ho]

/-- C3 (amended), at the sample stages, from the initial state and from a state left by an
earlier run: the semantic reports, the statistics and both sequences are identical. -/
theorem results_independent_of_prior_state_witness :
    (stateAfter (sampleStages (some 0)) "x" true HostState.initial).semanticResult =
        (stateAfter (sampleStages (some 0)) "x" true earlierState).semanticResult ∧
      (stateAfter (sampleStages (some 0)) "x" true HostState.initial).analysisStats =
        (stateAfter (sampleStages (some 0)) "x" true earlierState).analysisStats ∧
      (stateAfter (sampleStages (some 0)) "x" true HostState.initial).intermediateCode =
        (stateAfter (sampleStages (some 0)) "x" true earlierState).intermediateCode ∧
      (stateAfter (sampleStages (some 0)) "x" true HostState.initial).optimizedCode =
        (stateAfter (sampleStages (some 0)) "x" true earlierState).optimizedCode :=
  have key := results_independent_of_prior_state (sampleStages (some 0)) "x" true
    HostState.initial earlierState
  have hno := sampleStages_no_throw "x" HostState.initial
  ⟨key.2.1 (fun r hr => by cases hr; rfl),
    key.2.2.1 hno,
    (key.2.2.2 (sampleResults (some 0)) 7 rfl rfl).1 (fun c hc m hm => absurd hm (hno c hc m)),
    (key.2.2.2 (sampleResults (some 0)) 7 rfl rfl).2 hno⟩

/-! ## Runs in which a stage throws (C4, C5, C6) -/

/-- C4, counterexample: the semantic analyzer throws; the lexical and syntactic reports, whose
phases did not fail, are not the reports they are without the failure: they hold the failure
message. -/
theorem other_reports_kept_counterexample :
    (stateAfter (sampleStages (some 0)) "x" true earlierState).lexicalResult = "lexico" ∧
      (stateAfter (semanticThrowsStages (some 0)) "x" true earlierState).lexicalResult =
        "Error durante el análisis: boom" ∧
      (stateAfter (sampleStages (some 0)) "x" true earlierState).syntacticResult =
        "sintactico" ∧
      (stateAfter (semanticThrowsStages (some 0)) "x" true earlierState).syntacticResult =
        "Error durante el análisis: boom" := by
  refine ⟨?_, ?_, ?_, ?_⟩
  · rw [stateAfter, run_generates _ _ _ _ (sampleResults (some 0)) 7 _ [sampleQuad]
      [sampleQuad] rfl rfl rfl rfl rfl rfl]
    rfl
  · rw [stateAfter, run_semantics_throws _ _ _ _ _ 7 "boom" rfl rfl rfl]; rfl
  · rw [stateAfter, run_generates _ _ _ _ (sampleResults (some 0)) 7 _ [sampleQuad]
      [sampleQuad] rfl rfl rfl rfl rfl rfl]
    rfl
  · rw [stateAfter, run_semantics_throws _ _ _ _ _ 7 "boom" rfl rfl rfl]; rfl

/-- C4 (amended): in every run in which a stage throws an error with message `m`, the three
reports (lexical, syntactic and semantic) all hold the failure message after the run,
whichever stage failed, and the optimized sequence and the statistics held before the run
are left untouched. -/
theorem failure_replaces_all_reports {Tree : Type} (S : Stages Tree) (code : String)
    (silent : Bool) (h : HostState) (m : String) (hthrow : StageThrows S code silent h m) :
    (stateAfter S code silent h).lexicalResult = "Error durante el análisis: " ++ m ∧
      (stateAfter S code silent h).syntacticResult = "Error durante el análisis: " ++ m ∧
      (stateAfter S code silent h).semanticResult = "Error durante el análisis: " ++ m ∧
      (stateAfter S code silent h).optimizedCode = h.optimizedCode ∧
      (stateAfter S code silent h).analysisStats = h.analysisStats := by
  obtain ⟨c, hc, hm⟩ := hthrow
  rw [state_of_throwing_call S code silent h c m hc hm]
  cases silent <;> cases c <;> simp [failed, begun]

/-- C4 (amended), at stages whose semantic analyzer throws. -/
theorem failure_replaces_all_reports_witness :
    (stateAfter (semanticThrowsStages (some 0)) "x" true earlierState).lexicalResult =
        "Error durante el análisis: " ++ "boom" ∧
      (stateAfter (semanticThrowsStages (some 0)) "x" true earlierState).syntacticResult =
        "Error durante el análisis: " ++ "boom" ∧
      (stateAfter (semanticThrowsStages (some 0)) "x" true earlierState).semanticResult =
        "Error durante el análisis: " ++ "boom" ∧
      (stateAfter (semanticThrowsStages (some 0)) "x" true earlierState).optimizedCode =
        earlierState.optimizedCode ∧
      (stateAfter (semanticThrowsStages (some 0)) "x" true earlierState).analysisStats =
        earlierState.analysisStats :=
  failure_replaces_all_reports (semanticThrowsStages (some 0)) "x" true earlierState "boom"
    ⟨_, (semanticThrowsStages_throws (some 0) earlierState).1,
      (semanticThrowsStages_throws (some 0) earlierState).2⟩

/-- C5, counterexample: the optimizer throws; after the run the intermediate sequence is the
one generated by the failing run, next to the optimized sequence and the statistics of the
earlier run. -/
theorem partial_state_counterexample :
    (stateAfter optimizerThrowsStages "x" true earlierState).intermediateCode = [sampleQuad] ∧
      (stateAfter optimizerThrowsStages "x" true earlierState).intermediateCode ≠
        earlierState.intermediateCode ∧
      (stateAfter optimizerThrowsStages "x" true earlierState).optimizedCode =
        earlierState.optimizedCode ∧
      (stateAfter optimizerThrowsStages "x" true earlierState).analysisStats =
        earlierState.analysisStats := by
  rw [stateAfter, run_optimizer_throws _ _ _ _ _ 7 _ [sampleQuad] "boom" rfl rfl rfl rfl rfl
    rfl]
  exact ⟨rfl, by decide, rfl, rfl⟩

/-- C5 (amended): in every run in which a stage throws, the optimized sequence and the
statistics are not updated; the intermediate sequence is not updated when the stage that
throws is the lexer/parser, the semantic analyzer or the quadruple generator, and it is the
sequence generated by the run when the stage that throws is the optimizer. -/
theorem failing_run_updates {Tree : Type} (S : Stages Tree) (code : String) (silent : Bool)
    (h : HostState) (c : Call Tree) (m : String) (hc : c ∈ callsOf S code silent h)
    (hthrow : S.throwsWith c m) :
    (stateAfter S code silent h).optimizedCode = h.optimizedCode ∧
      (stateAfter S code silent h).analysisStats = h.analysisStats ∧
      ((∀ q, c ≠ .optimizeCode q) →
        (stateAfter S code silent h).intermediateCode = h.intermediateCode) ∧
      (∀ q, c = .optimizeCode q → (stateAfter S code silent h).intermediateCode = q) := by
  rw [state_of_throwing_call S code silent h c m hc hthrow]
  cases silent <;> cases c <;> simp [failed, begun]

/-- C5 (amended), at stages whose optimizer throws. -/
theorem failing_run_updates_witness :
    (stateAfter optimizerThrowsStages "x" true earlierState).optimizedCode =
        earlierState.optimizedCode ∧
      (stateAfter optimizerThrowsStages "x" true earlierState).analysisStats =
        earlierState.analysisStats ∧
      ((∀ q, Call.optimizeCode [sampleQuad] ≠ (.optimizeCode q : Call Nat)) →
        (stateAfter optimizerThrowsStages "x" true earlierState).intermediateCode =
          earlierState.intermediateCode) ∧
      (∀ q, Call.optimizeCode [sampleQuad] = (.optimizeCode q : Call Nat) →
        (stateAfter optimizerThrowsStages "x" true earlierState).intermediateCode = q) :=
  failing_run_updates optimizerThrowsStages "x" true earlierState
    (.optimizeCode [sampleQuad]) "boom" (optimizerThrowsStages_throws earlierState).1
    (optimizerThrowsStages_throws earlierState).2

/-- C6: every run completes normally, and in every run in which a stage (lexer/parser, semantic
analyzer, quadruple generator or optimizer) throws an error with message `m`, the report
presented is `"Error durante el análisis: "` followed by `m`. -/
theorem no_failure_escapes {Tree : Type} (S : Stages Tree) (code : String) (silent : Bool)
    (h : HostState) :
    (runAnalysis S code silent h).1 = .ok () ∧
      ∀ m, StageThrows S code silent h m →
        (stateAfter S code silent h).lexicalResult = "Error durante el análisis: " ++ m ∧
          (stateAfter S code silent h).syntacticResult = "Error durante el análisis: " ++ m ∧
          (stateAfter S code silent h).semanticResult = "Error durante el análisis: " ++ m := by
  constructor
  · rcases path_exists S code with ⟨m, hl⟩ | ⟨r, hl, ht⟩ | ⟨r, t, m, hl, ht, hs⟩ |
      ⟨r, t, s, hl, ht, hs, h0⟩ | ⟨r, t, s, m, hl, ht, hs, h0, hg⟩ |
      ⟨r, t, s, q, m, hl, ht, hs, h0, hg, ho⟩ | ⟨r, t, s, q, o, hl, ht, hs, h0, hg, ho⟩
    · rw [run_lexer_throws S code silent h m hl]
    · rw [run_no_tree S code silent h r hl ht]
    · rw [run_semantics_throws S code silent h r t m hl ht hs]
    · rw [run_syntax_errors S code silent h r t s hl ht hs h0]
    · rw [run_generator_throws S code silent h r t s m hl ht hs h0 hg]
    · rw [run_optimizer_throws S code silent h r t s q m hl ht hs h0 hg ho]
    · rw [run_generates S code silent h r t s q o hl ht hs h0 hg ho]
  · rintro m ⟨c, hc, hm⟩
    rw [state_of_throwing_call S code silent h c m hc hm]
    exact ⟨rfl, rfl, rfl⟩

/-- C6, at stages whose optimizer throws. -/
theorem no_failure_escapes_witness :
    (runAnalysis optimizerThrowsStages "x" true earlierState).1 = .ok () ∧
      (stateAfter optimizerThrowsStages "x" true earlierState).lexicalResult =
        "Error durante el análisis: " ++ "boom" ∧
      (stateAfter optimizerThrowsStages "x" true earlierState).syntacticResult =
        "Error durante el análisis: " ++ "boom" ∧
      (stateAfter optimizerThrowsStages "x" true earlierState).semanticResult =
        "Error durante el análisis: " ++ "boom" :=
  ⟨(no_failure_escapes optimizerThrowsStages "x" true earlierState).1,
    (no_failure_escapes optimizerThrowsStages "x" true earlierState).2 "boom"
      ⟨_, (optimizerThrowsStages_throws earlierState).1,
        (optimizerThrowsStages_throws earlierState).2⟩⟩

/-! ## The statistics (C7, C8) -/

/-- C7, counterexample: on the empty text, with stages that report no token, no error and no
quadruple, the statistics set by the run have `linesOfCode = 1`: they are not zero-valued. -/
theorem empty_text_stats_counterexample :
    (stateAfter emptyTextStages "" true HostState.initial).analysisStats =
        some { lexicalErrors := 0, syntaxErrors := 0, semanticErrors := 0, warnings := 0,
               linesOfCode := 1, tokens := 0, characters := 0 } ∧
      (stateAfter emptyTextStages "" true HostState.initial).analysisStats ≠
        some { lexicalErrors := 0, syntaxErrors := 0, semanticErrors := 0, warnings := 0,
               linesOfCode := 0, tokens := 0, characters := 0 } := by
  rw [stateAfter, run_generates _ _ _ _ _ 0 _ [] [] rfl rfl rfl rfl rfl rfl]
  exact ⟨by decide, by decide⟩

/-- C7 (amended): a run on the empty text, with a first stage that reports zero tokens and zero
errors and, when it returns a tree, a semantic analyzer that reports zero errors and
warnings, a generator that returns no quadruple and an optimizer that returns the empty
sequence for the empty sequence, sets statistics in which `linesOfCode` is 1 and every other
field is 0, and when a tree is returned the intermediate and optimized sequences are empty
after the run. -/
theorem empty_text_stats {Tree : Type} (S : Stages Tree) (silent : Bool) (h : HostState)
    (r : LexSyntaxResults Tree)
    (hl : S.analyzeLexicalSyntactic "" = .ok r)
    (hle : r.lexicalErrors = some 0) (hse : r.syntaxErrors = some 0)
    (htc : r.tokenCount = some 0)
    (hrest : ∀ t, r.ast = some t →
      (∃ s, S.analyzeSemantics t = .ok s ∧ s.errorCount = some 0 ∧ s.warningCount = some 0) ∧
        S.generate t = .ok [] ∧ S.optimizeCode [] = .ok []) :
    (stateAfter S "" silent h).analysisStats =
        some { lexicalErrors := 0, syntaxErrors := 0, semanticErrors := 0, warnings := 0,
               linesOfCode := 1, tokens := 0, characters := 0 } ∧
      (r.ast.isSome →
        (stateAfter S "" silent h).intermediateCode = [] ∧
          (stateAfter S "" silent h).optimizedCode = []) := by
  have hlines : linesOfCode "" = 1 := by decide
  have hchars : jsLength "" = 0 := by decide
  rcases ht : r.ast with _ | t
  · rw [stateAfter, run_no_tree S "" silent h r hl ht]
    simp [statsOf, hle, hse, htc, orZero, hlines, hchars]
  · obtain ⟨⟨s, hs, hec, hwc⟩, hg, ho⟩ := hrest t ht
    rw [stateAfter, run_generates S "" silent h r t s [] [] hl ht hs hse hg ho]
    simp [statsOf, hle, hse, htc, hec, hwc, orZero, hlines, hchars]

/-- C7 (amended), at stages for the empty text, from a state left by an earlier run. -/
theorem empty_text_stats_witness :
    (stateAfter emptyTextStages "" true earlierState).analysisStats =
        some { lexicalErrors := 0, syntaxErrors := 0, semanticErrors := 0, warnings := 0,
               linesOfCode := 1, tokens := 0, characters := 0 } ∧
      (stateAfter emptyTextStages "" true earlierState).intermediateCode = [] ∧
      (stateAfter emptyTextStages "" true earlierState).optimizedCode = [] :=
  have key := empty_text_stats emptyTextStages true earlierState
    { lexicalResult := "", syntacticResult := "", ast := some 0, lexicalErrors := some 0,
      syntaxErrors := some 0, tokenCount := some 0 }
    rfl rfl rfl rfl (fun _ _ => ⟨⟨_, rfl, rfl, rfl⟩, rfl, rfl⟩)
  ⟨key.1, key.2 rfl⟩

/-- C8: in every run in which no stage throws, the statistics set by the run are the record of
the seven fields `lexicalErrors`, `syntaxErrors`, `semanticErrors`, `warnings`, `linesOfCode`,
`tokens`, `characters` in which `lexicalErrors`, `syntaxErrors` and `tokens` are the first
stage's `lexicalErrors`, `syntaxErrors` and `tokenCount` (0 when missing), `semanticErrors`
and `warnings` are the semantic analyzer's `errorCount` and `warningCount` (0 when no tree was
analysed), `characters` is the length of the text and `linesOfCode` is one more than the
number of its newline characters; nothing of the state held before the run enters it. -/
theorem stats_of_run {Tree : Type} (S : Stages Tree) (code : String) (silent : Bool)
    (h : HostState) (hn : NoStageThrows S code silent h) :
    ∃ r, S.analyzeLexicalSyntactic code = .ok r ∧
      ∃ errors warns,
        (stateAfter S code silent h).analysisStats =
          some { lexicalErrors := r.lexicalErrors.getD 0,
                 syntaxErrors := r.syntaxErrors.getD 0,
                 semanticErrors := errors,
                 warnings := warns,
                 linesOfCode := code.toList.count '\n' + 1,
                 tokens := r.tokenCount.getD 0,
                 characters := jsLength code } ∧
        (r.ast = none → errors = 0 ∧ warns = 0) ∧
        (∀ t, r.ast = some t →
          ∃ s, S.analyzeSemantics t = .ok s ∧
            errors = s.errorCount.getD 0 ∧ warns = s.warningCount.getD 0) := by
  obtain ⟨r, hl, hrest⟩ := stages_of_no_throw S code silent h hn
  refine ⟨r, hl, ?_⟩
  rcases ht : r.ast with _ | t
  · refine ⟨0, 0, ?_, fun _ => ⟨rfl, rfl⟩, fun t h1 => (by cases h1)⟩
    rw [stateAfter, run_no_tree S code silent h r hl ht]
    simp [statsOf, orZero_eq_getD, linesOfCode_eq]
  · obtain ⟨s, hs, hgen⟩ := hrest t ht
    refine ⟨s.errorCount.getD 0, s.warningCount.getD 0, ?_, fun h1 => (by cases h1),
      fun t1 h1 => ?_⟩
    · by_cases h0 : r.syntaxErrors = some 0
      · obtain ⟨q, o, hg, ho⟩ := hgen h0
        rw [stateAfter, run_generates S code silent h r t s q o hl ht hs h0 hg ho]
        simp [statsOf, orZero_eq_getD, linesOfCode_eq]
      · rw [stateAfter, run_syntax_errors S code silent h r t s hl ht hs h0]
        simp [statsOf, orZero_eq_getD, linesOfCode_eq]
    · obtain rfl : t = t1 := Option.some.inj h1
      exact ⟨s, hs, rfl, rfl⟩

/-- C8, at the sample stages on a text of two lines: no lexical or syntax error, one semantic
error, two warnings, two lines, three tokens, three characters. -/
theorem stats_of_run_witness :
    (stateAfter (sampleStages (some 0)) "a\nb" true earlierState).analysisStats =
      some { lexicalErrors := 0, syntaxErrors := 0, semanticErrors := 1, warnings := 2,
             linesOfCode := 2, tokens := 3, characters := 3 } := by
  obtain ⟨r, hr, errors, warns, hst, -, htree⟩ :=
    stats_of_run (sampleStages (some 0)) "a\nb" true earlierState
      (sampleStages_no_throw "a\nb" earlierState)
  obtain rfl : sampleResults (some 0) = r := ok_unique rfl hr
  obtain ⟨s, hs, rfl, rfl⟩ := htree 7 rfl
  obtain rfl : ({ result := "semantico", errorCount := some 1, warningCount := some 2 } :
      SemResults) = s := ok_unique rfl hs
  rw [hst]
  decide

/-! ## The generator and the optimizer (C9, C10) -/

/-- C9: in every run in which the generator is invoked and returns a sequence `q`, empty or
not, the optimizer is invoked, on `q` and on nothing else, the intermediate sequence held
after the run is `q`, and the optimized sequence held after the run is the sequence that
`optimizeCode` returns for `q`. -/
theorem optimizer_consumes_generated {Tree : Type} (S : Stages Tree) (code : String)
    (silent : Bool) (h : HostState) (t : Tree) (q : List Quadruple)
    (hc : Call.generate t ∈ callsOf S code silent h) (hq : S.generate t = .ok q) :
    Call.optimizeCode q ∈ callsOf S code silent h ∧
      (∀ q1, Call.optimizeCode q1 ∈ callsOf S code silent h → q1 = q) ∧
      (stateAfter S code silent h).intermediateCode = q ∧
      (∀ o, S.optimizeCode q = .ok o → (stateAfter S code silent h).optimizedCode = o) := by
  rcases path_exists S code with ⟨m, hl⟩ | ⟨r, hl, ht⟩ | ⟨r, t1, m, hl, ht, hs⟩ |
    ⟨r, t1, s, hl, ht, hs, h0⟩ | ⟨r, t1, s, m, hl, ht, hs, h0, hg⟩ |
    ⟨r, t1, s, q1, m, hl, ht, hs, h0, hg, ho⟩ | ⟨r, t1, s, q1, o1, hl, ht, hs, h0, hg, ho⟩
  · rw [callsOf, run_lexer_throws S code silent h m hl] at hc
    simp at hc
  · rw [callsOf, run_no_tree S code silent h r hl ht] at hc
    simp at hc
  · rw [callsOf, run_semantics_throws S code silent h r t1 m hl ht hs] at hc
    simp at hc
  · rw [callsOf, run_syntax_errors S code silent h r t1 s hl ht hs h0] at hc
    simp at hc
  · rw [callsOf, run_generator_throws S code silent h r t1 s m hl ht hs h0 hg] at hc
    simp at hc
    subst hc
    rw [hg] at hq; cases hq
  · rw [callsOf, run_optimizer_throws S code silent h r t1 s q1 m hl ht hs h0 hg ho] at hc
    simp at hc
    subst hc
    obtain rfl : q1 = q := ok_unique hg hq
    rw [callsOf, stateAfter, run_optimizer_throws S code silent h r t s q1 m hl ht hs h0 hg ho]
    refine ⟨by simp, fun q2 h2 => by simpa using h2, rfl, fun o ho1 => ?_⟩
    rw [ho] at ho1; cases ho1
  · rw [callsOf, run_generates S code silent h r t1 s q1 o1 hl ht hs h0 hg ho] at hc
    simp at hc
    subst hc
    obtain rfl : q1 = q := ok_unique hg hq
    rw [callsOf, stateAfter, run_generates S code silent h r t s q1 o1 hl ht hs h0 hg ho]
    refine ⟨by simp, fun q2 h2 => by simpa using h2, rfl, fun o ho1 => ?_⟩
    exact ok_unique ho ho1

/-- C9, at the sample stages: the generated sequence is stored and handed to the optimizer. -/
theorem optimizer_consumes_generated_witness :
    Call.optimizeCode [sampleQuad] ∈
        callsOf (sampleStages (some 0)) "x" true earlierState ∧
      (∀ q1, Call.optimizeCode q1 ∈ callsOf (sampleStages (some 0)) "x" true earlierState →
        q1 = [sampleQuad]) ∧
      (stateAfter (sampleStages (some 0)) "x" true earlierState).intermediateCode =
        [sampleQuad] ∧
      (∀ o, (sampleStages (some 0)).optimizeCode [sampleQuad] = .ok o →
        (stateAfter (sampleStages (some 0)) "x" true earlierState).optimizedCode = o) :=
  optimizer_consumes_generated (sampleStages (some 0)) "x" true earlierState 7 [sampleQuad]
    (by
      rw [callsOf, run_generates _ _ _ _ (sampleResults (some 0)) 7 _ [sampleQuad]
        [sampleQuad] rfl rfl rfl rfl rfl rfl]
      simp)
    rfl

/-- C10: the tree given to the generator is the tree returned by the first stage, and the
sequences do not depend on what the semantic analyzer returns: two runs on the same text,
from states that hold the same sequences, with the same first stage, generator and optimizer
and with semantic analyzers that both return, end with equal intermediate sequences and equal
optimized sequences. -/
theorem generator_consumes_parser_tree {Tree : Type} (S : Stages Tree)
    (analyzeSemantics2 : Tree → Except String SemResults) (code : String) (silent : Bool)
    (h1 h2 : HostState) :
    (∀ t, Call.generate t ∈ callsOf S code silent h1 →
        ∃ r, S.analyzeLexicalSyntactic code = .ok r ∧ r.ast = some t) ∧
      (h1.intermediateCode = h2.intermediateCode → h1.optimizedCode = h2.optimizedCode →
        (∀ r t, S.analyzeLexicalSyntactic code = .ok r → r.ast = some t →
          (∃ s, S.analyzeSemantics t = .ok s) ∧ ∃ s, analyzeSemantics2 t = .ok s) →
        (stateAfter S code silent h1).intermediateCode =
            (stateAfter { S with analyzeSemantics := analyzeSemantics2 } code silent
              h2).intermediateCode ∧
          (stateAfter S code silent h1).optimizedCode =
            (stateAfter { S with analyzeSemantics := analyzeSemantics2 } code silent
              h2).optimizedCode) := by
  rcases path_exists S code with ⟨m, hl⟩ | ⟨r, hl, ht⟩ | ⟨r, t, m, hl, ht, hs⟩ |
    ⟨r, t, s, hl, ht, hs, h0⟩ | ⟨r, t, s, m, hl, ht, hs, h0, hg⟩ |
    ⟨r, t, s, q, m, hl, ht, hs, h0, hg, ho⟩ | ⟨r, t, s, q, o, hl, ht, hs, h0, hg, ho⟩
  · refine ⟨fun t hc => ?_, fun hi hopt _ => ?_⟩
    · rw [callsOf, run_lexer_throws S code silent h1 m hl] at hc
      simp at hc
    · rw [stateAfter, stateAfter, run_lexer_throws S code silent h1 m hl,
        run_lexer_throws { S with analyzeSemantics := analyzeSemantics2 } code silent h2 m hl]
      cases silent <;> simp [failed, begun, hi, hopt]
  · refine ⟨fun t hc => ?_, fun hi hopt _ => ?_⟩
    · rw [callsOf, run_no_tree S code silent h1 r hl ht] at hc
      simp at hc
    · rw [stateAfter, stateAfter, run_no_tree S code silent h1 r hl ht,
        run_no_tree { S with analyzeSemantics := analyzeSemantics2 } code silent h2 r hl ht]
      cases silent <;> simp [begun, hi, hopt]
  · refine ⟨fun t1 hc => ?_, fun _ _ hret => ?_⟩
    · rw [callsOf, run_semantics_throws S code silent h1 r t m hl ht hs] at hc
      simp at hc
    · obtain ⟨⟨s, hs1⟩, -⟩ := hret r t hl ht
      rw [hs] at hs1; cases hs1
  · refine ⟨fun t1 hc => ?_, fun _ _ hret => ?_⟩
    · rw [callsOf, run_syntax_errors S code silent h1 r t s hl ht hs h0] at hc
      simp at hc
    · obtain ⟨-, s2, hs2⟩ := hret r t hl ht
      rw [stateAfter, stateAfter, run_syntax_errors S code silent h1 r t s hl ht hs h0,
        run_syntax_errors { S with analyzeSemantics := analyzeSemantics2 } code silent h2 r t
          s2 hl ht hs2 h0]
      exact ⟨rfl, rfl⟩
  · refine ⟨fun t1 hc => ?_, fun hi hopt hret => ?_⟩
    · rw [callsOf, run_generator_throws S code silent h1 r t s m hl ht hs h0 hg] at hc
      simp at hc
      subst hc
      exact ⟨r, hl, ht⟩
    · obtain ⟨-, s2, hs2⟩ := hret r t hl ht
      rw [stateAfter, stateAfter, run_generator_throws S code silent h1 r t s m hl ht hs h0 hg,
        run_generator_throws { S with analyzeSemantics := analyzeSemantics2 } code silent h2 r
          t s2 m hl ht hs2 h0 hg]
      cases silent <;> simp [failed, begun, hi, hopt]
  · refine ⟨fun t1 hc => ?_, fun hi hopt hret => ?_⟩
    · rw [callsOf, run_optimizer_throws S code silent h1 r t s q m hl ht hs h0 hg ho] at hc
      simp at hc
      subst hc
      exact ⟨r, hl, ht⟩
    · obtain ⟨-, s2, hs2⟩ := hret r t hl ht
      rw [stateAfter, stateAfter,
        run_optimizer_throws S code silent h1 r t s q m hl ht hs h0 hg ho,
        run_optimizer_throws { S with analyzeSemantics := analyzeSemantics2 } code silent h2 r
          t s2 q m hl ht hs2 h0 hg ho]
      cases silent <;> simp [failed, begun, hi, hopt]
  · refine ⟨fun t1 hc => ?_, fun _ _ hret => ?_⟩
    · rw [callsOf, run_generates S code silent h1 r t s q o hl ht hs h0 hg ho] at hc
      simp at hc
      subst hc
      exact ⟨r, hl, ht⟩
    · obtain ⟨-, s2, hs2⟩ := hret r t hl ht
      rw [stateAfter, stateAfter, run_generates S code silent h1 r t s q o hl ht hs h0 hg ho,
        run_generates { S with analyzeSemantics := analyzeSemantics2 } code silent h2 r t s2 q
          o hl ht hs2 h0 hg ho]
      exact ⟨rfl, rfl⟩

/-- C10, at the sample stages and a semantic analyzer that reports other results. -/
theorem generator_consumes_parser_tree_witness :
    (stateAfter (sampleStages (some 0)) "x" true earlierState).intermediateCode =
        (stateAfter
          { sampleStages (some 0) with
            analyzeSemantics := fun _ =>
              .ok { result := "otro", errorCount := some 9, warningCount := none } }
          "x" true earlierState).intermediateCode ∧
      (stateAfter (sampleStages (some 0)) "x" true earlierState).optimizedCode =
        (stateAfter
          { sampleStages (some 0) with
            analyzeSemantics := fun _ =>
              .ok { result := "otro", errorCount := some 9, warningCount := none } }
          "x" true earlierState).optimizedCode :=
  (generator_consumes_parser_tree (sampleStages (some 0))
    (fun _ => .ok { result := "otro", errorCount := some 9, warningCount := none })
    "x" true earlierState earlierState).2 rfl rfl (fun _ _ _ _ => ⟨⟨_, rfl⟩, ⟨_, rfl⟩⟩)

/-! ## The table of quadruples (C11) -/

theorem byTagList_rows (tag : String) (rows : List Node)
    (h : ∀ r ∈ rows, r.byTag tag = [r]) : Node.byTagList tag rows = rows := by
  induction rows with
  | nil => rfl
  | cons r rows ih =>
    rw [Node.byTagList, h r (List.mem_cons_self r rows),
      ih fun x hx => h x (List.mem_cons_of_mem r hx)]
    rfl

theorem byTagList_none (tag : String) (rows : List Node)
    (h : ∀ r ∈ rows, r.byTag tag = []) : Node.byTagList tag rows = [] := by
  induction rows with
  | nil => rfl
  | cons r rows ih =>
    rw [Node.byTagList, h r (List.mem_cons_self r rows),
      ih fun x hx => h x (List.mem_cons_of_mem r hx)]
    rfl

theorem quadrupleRow_tr (row : Quadruple) (i : Nat) :
    (quadrupleRow row i).byTag "tr" = [quadrupleRow row i] := by
  simp [quadrupleRow, Node.byTag, Node.byTagList]

theorem quadrupleRow_tbody (row : Quadruple) (i : Nat) :
    (quadrupleRow row i).byTag "tbody" = [] := by
  simp [quadrupleRow, Node.byTag, Node.byTagList]

theorem quadrupleRow_cells (row : Quadruple) (i : Nat) :
    cellTexts (quadrupleRow row i) =
      [toString i, row.op,
       if row.arg1 = .null then "-" else jsString row.arg1,
       if row.arg2 = .null then "-" else jsString row.arg2,
       if row.res = .null then "-" else jsString row.res] := by
  simp [cellTexts, quadrupleRow, Node.byTag, Node.byTagList, Node.textContent,
    Node.textContentList]

theorem bodyRows_eq (data : List Quadruple) (emptyMessage : String) (hne : data ≠ []) :
    bodyRows (QuadrupleTable (some data) emptyMessage) =
      data.enum.map fun p => quadrupleRow p.2 p.1 := by
  have hlen : data.length ≠ 0 := by simpa using hne
  have htr : Node.byTagList "tr" (data.enum.map fun p => quadrupleRow p.2 p.1) =
      data.enum.map fun p => quadrupleRow p.2 p.1 :=
    byTagList_rows _ _ fun r hr => by
      obtain ⟨p, -, rfl⟩ := List.mem_map.mp hr
      exact quadrupleRow_tr _ _
  have htb : Node.byTagList "tbody" (data.enum.map fun p => quadrupleRow p.2 p.1) = [] :=
    byTagList_none _ _ fun r hr => by
      obtain ⟨p, -, rfl⟩ := List.mem_map.mp hr
      exact quadrupleRow_tbody _ _
  simp only [bodyRows, QuadrupleTable, if_neg hlen]
  simp [Node.byTag, Node.byTagList, htr, htb]

theorem emptyTable_eq (data : Option (List Quadruple)) (emptyMessage : String)
    (h : data = none ∨ data = some []) :
    QuadrupleTable data emptyMessage =
      .element "div" "text-gray-500 italic text-center py-8" [.text emptyMessage] := by
  rcases h with rfl | rfl <;> simp [QuadrupleTable]

/-- C11, counterexample: the first operand of the record is the string `-`, which is not the
`null` marker, and its cell shows `-`, as the cell of the second operand, which is `null`,
does. -/
theorem dash_cell_counterexample :
    dashQuad.arg1 ≠ .null ∧ dashQuad.arg2 = .null ∧
      (bodyRows (QuadrupleTable (some [dashQuad]) "vacio"))[0]?.map cellTexts =
        some ["0", "=", "-", "-", "x"] := by
  decide

/-- C11 (amended): for every non-empty list of quadruple records the body of the table
rendered by `QuadrupleTable` has exactly one row per record, in list order (the only other
row of the table is the header row), and the row at position `i` has five cells that show
`i`, the record's `op`, and its `arg1`, `arg2` and `res`, where the cell of a slot shows
`"-"` when the slot is the `null` marker and the string form `String(slot)` otherwise, which
is `"-"` too for a slot that holds the string `-`; for an absent or empty list only the
empty message is rendered, with no table and no row. -/
theorem quadrupleTable_renders (emptyMessage : String) :
    (∀ data : List Quadruple, data ≠ [] →
      (bodyRows (QuadrupleTable (some data) emptyMessage)).length = data.length ∧
        ((QuadrupleTable (some data) emptyMessage).byTag "tr").length = data.length + 1 ∧
        ∀ (i : Nat) (hi : i < data.length),
          (bodyRows (QuadrupleTable (some data) emptyMessage))[i]?.map cellTexts =
            some [toString i, data[i].op,
                  if data[i].arg1 = .null then "-" else jsString data[i].arg1,
                  if data[i].arg2 = .null then "-" else jsString data[i].arg2,
                  if data[i].res = .null then "-" else jsString data[i].res]) ∧
      (∀ data : Option (List Quadruple), data = none ∨ data = some [] →
        (QuadrupleTable data emptyMessage).textContent = emptyMessage ∧
          (QuadrupleTable data emptyMessage).byTag "table" = [] ∧
          (QuadrupleTable data emptyMessage).byTag "tr" = [] ∧
          bodyRows (QuadrupleTable data emptyMessage) = []) := by
  refine ⟨fun data hne => ⟨?_, ?_, fun i hi => ?_⟩, fun data h => ?_⟩
  · rw [bodyRows_eq data emptyMessage hne]
    simp
  · have hlen : data.length ≠ 0 := by simpa using hne
    have htr : Node.byTagList "tr" (data.enum.map fun p => quadrupleRow p.2 p.1) =
        data.enum.map fun p => quadrupleRow p.2 p.1 :=
      byTagList_rows _ _ fun r hr => by
        obtain ⟨p, -, rfl⟩ := List.mem_map.mp hr
        exact quadrupleRow_tr _ _
    simp only [QuadrupleTable, if_neg hlen]
    simp [Node.byTag, Node.byTagList, htr]
  · rw [bodyRows_eq data emptyMessage hne]
    simp [List.getElem?_enum, List.getElem?_eq_getElem hi, quadrupleRow_cells]
  · rw [emptyTable_eq data emptyMessage h]
    simp [bodyRows, Node.byTag, Node.byTagList, Node.textContent, Node.textContentList]

/-- C11 (amended), at a list of three records: three rows, of which the second shows `1`,
`=`, `5`, `-` (the `null` marker) and `x`, and the third shows `2`, `CALL`, `1e+21`,
`undefined` and `true`; for the empty list only the message is shown. -/
theorem quadrupleTable_renders_witness :
    (bodyRows (QuadrupleTable (some [sampleQuad, earlierQuad, mixedQuad]) "vacio")).length
        = 3 ∧
      (bodyRows (QuadrupleTable (some [sampleQuad, earlierQuad, mixedQuad])
          "vacio"))[1]?.map cellTexts = some ["1", "=", "5", "-", "x"] ∧
      (bodyRows (QuadrupleTable (some [sampleQuad, earlierQuad, mixedQuad])
          "vacio"))[2]?.map cellTexts = some ["2", "CALL", "1e+21", "undefined", "true"] ∧
      (QuadrupleTable (some []) "vacio").textContent = "vacio" ∧
      (QuadrupleTable (some []) "vacio").byTag "tr" = [] :=
  ⟨((quadrupleTable_renders "vacio").1 [sampleQuad, earlierQuad, mixedQuad] (by decide)).1,
    ((quadrupleTable_renders "vacio").1 [sampleQuad, earlierQuad, mixedQuad]
      (by decide)).2.2 1 (by decide),
    ((quadrupleTable_renders "vacio").1 [sampleQuad, earlierQuad, mixedQuad]
      (by decide)).2.2 2 (by decide),
    ((quadrupleTable_renders "vacio").2 (some []) (Or.inr rfl)).1,
    ((quadrupleTable_renders "vacio").2 (some []) (Or.inr rfl)).2.2.1⟩

/-! ## The passes of the optimizer do not lengthen the sequence -/

theorem foldConstants_length (c : OptimizerChoices) (quads : List Quadruple) :
    (foldConstants c quads).length = quads.length := by
  simp [foldConstants]

theorem collapseJumps_length (quads : List Quadruple) :
    (collapseJumps quads).length = quads.length := by
  simp [collapseJumps]

theorem dropUnreachable_length (c : OptimizerChoices) (targets : List QValue) (dead : Bool)
    (quads : List Quadruple) :
    (dropUnreachable c targets dead quads).length ≤ quads.length := by
  induction quads generalizing dead with
  | nil => simp [dropUnreachable]
  | cons q rest ih =>
    unfold dropUnreachable
    split
    · exact Nat.le_succ_of_le (ih true)
    · exact Nat.succ_le_succ (ih _)

theorem removeUnreachable_length (c : OptimizerChoices) (quads : List Quadruple) :
    (removeUnreachable c quads).length ≤ quads.length :=
  dropUnreachable_length c _ false quads

theorem dropMergedLabels_length (afterLabel : Bool) (quads : List Quadruple) :
    (dropMergedLabels afterLabel quads).length ≤ quads.length := by
  induction quads generalizing afterLabel with
  | nil => simp [dropMergedLabels]
  | cons q rest ih =>
    unfold dropMergedLabels
    split
    · split
      · exact Nat.le_succ_of_le (ih true)
      · exact Nat.succ_le_succ (ih true)
    · exact Nat.succ_le_succ (ih false)

theorem mergeLabels_length (quads : List Quadruple) :
    (mergeLabels quads).length ≤ quads.length := by
  simp only [mergeLabels, List.length_map]
  exact dropMergedLabels_length false quads

theorem optimizeRound_length (c : OptimizerChoices) (quads : List Quadruple) :
    (optimizeRound c quads).length ≤ quads.length := by
  unfold optimizeRound
  calc (mergeLabels (removeUnreachable c (collapseJumps (foldConstants c quads)))).length
      ≤ (removeUnreachable c (collapseJumps (foldConstants c quads))).length :=
        mergeLabels_length _
    _ ≤ (collapseJumps (foldConstants c quads)).length := removeUnreachable_length c _
    _ = (foldConstants c quads).length := collapseJumps_length _
    _ = quads.length := foldConstants_length c quads

theorem optimizeRounds_length (c : OptimizerChoices) (rounds : Nat) (quads : List Quadruple) :
    (optimizeRounds c rounds quads).length ≤ quads.length := by
  induction rounds generalizing quads with
  | zero => simp [optimizeRounds]
  | succ n ih =>
    unfold optimizeRounds
    split
    · exact Nat.le_refl _
    · exact Nat.le_trans (ih _) (optimizeRound_length c quads)

/-- The optimizer of the spec on the sample program: the sum is folded, the first jump goes
to the end of the chain, the unreachable quadruples and the second label are removed. -/
theorem optimize_sampleProgram :
    optimize sampleChoices sampleProgram =
      [ { op := "=", arg1 := .num ⟨3, by decide⟩, arg2 := .null, res := .str "t0" },
        { op := "GOTO", arg1 := .str "L2", arg2 := .null, res := .null },
        { op := "LABEL", arg1 := .null, arg2 := .null, res := .str "L2" },
        { op := "=", arg1 := .str "t0", arg2 := .null, res := .str "x" } ] := by
  decide

/-! ## The length of the optimized sequence (C12) -/

/-- C12, counterexample: the generator returns one quadruple and the optimizer throws, in a
run from a state left by an earlier run that generated two quadruples; after the run the
optimized sequence held has two quadruples and the intermediate sequence held has one. -/
theorem stale_optimized_longer_counterexample :
    Call.generate 7 ∈ callsOf optimizerModelFailsStages "x" true twoQuadState ∧
      optimizerModelFailsStages.generate 7 = .ok [sampleQuad] ∧
      (stateAfter optimizerModelFailsStages "x" true twoQuadState).intermediateCode =
        [sampleQuad] ∧
      (stateAfter optimizerModelFailsStages "x" true twoQuadState).optimizedCode =
        [earlierQuad, earlierQuad] ∧
      ¬ (stateAfter optimizerModelFailsStages "x" true twoQuadState).optimizedCode.length ≤
          (stateAfter optimizerModelFailsStages "x" true
            twoQuadState).intermediateCode.length := by
  rw [callsOf, stateAfter,
    run_optimizer_throws optimizerModelFailsStages "x" true twoQuadState
      (sampleResults (some 0)) 7 _ [sampleQuad] "boom" rfl rfl rfl rfl rfl rfl]
  refine ⟨by simp, rfl, rfl, rfl, by decide⟩

/-- C12 (amended): for every quadruple sequence `q` the sequence returned by the optimizer of
the spec is no longer than `q`; and after every run of `handleRunAnalysis`, with that
optimizer as its last stage, in which the generator is invoked and returns a sequence `q` on
which the optimizer does not fail, the intermediate sequence held is `q`, the optimized
sequence held is `optimize q`, and it is no longer than the intermediate sequence held. -/
theorem optimized_no_longer {Tree : Type} (c : OptimizerChoices)
    (failure : List Quadruple → Option String) (S : Stages Tree)
    (code : String) (silent : Bool) (h : HostState) :
    (∀ q : List Quadruple, (optimize c q).length ≤ q.length) ∧
      (S.optimizeCode = optimizeCodeModel c failure →
        ∀ (t : Tree) (q : List Quadruple),
          Call.generate t ∈ callsOf S code silent h → S.generate t = .ok q →
          failure q = none →
          (stateAfter S code silent h).intermediateCode = q ∧
            (stateAfter S code silent h).optimizedCode = optimize c q ∧
            (stateAfter S code silent h).optimizedCode.length ≤
              (stateAfter S code silent h).intermediateCode.length) := by
  have hlen : ∀ q : List Quadruple, (optimize c q).length ≤ q.length :=
    fun q => optimizeRounds_length c _ q
  refine ⟨hlen, fun hopt t q hc hq hfail => ?_⟩
  have hret : S.optimizeCode q = .ok (optimize c q) := by
    rw [hopt, optimizeCodeModel, hfail]
  rcases path_exists S code with ⟨m, hl⟩ | ⟨r, hl, ht⟩ | ⟨r, t1, m, hl, ht, hs⟩ |
    ⟨r, t1, s, hl, ht, hs, h0⟩ | ⟨r, t1, s, m, hl, ht, hs, h0, hg⟩ |
    ⟨r, t1, s, q1, m, hl, ht, hs, h0, hg, ho⟩ | ⟨r, t1, s, q1, o1, hl, ht, hs, h0, hg, ho⟩
  · rw [callsOf, run_lexer_throws S code silent h m hl] at hc
    simp at hc
  · rw [callsOf, run_no_tree S code silent h r hl ht] at hc
    simp at hc
  · rw [callsOf, run_semantics_throws S code silent h r t1 m hl ht hs] at hc
    simp at hc
  · rw [callsOf, run_syntax_errors S code silent h r t1 s hl ht hs h0] at hc
    simp at hc
  · rw [callsOf, run_generator_throws S code silent h r t1 s m hl ht hs h0 hg] at hc
    simp at hc
    subst hc
    rw [hg] at hq; cases hq
  · rw [callsOf, run_optimizer_throws S code silent h r t1 s q1 m hl ht hs h0 hg ho] at hc
    simp at hc
    subst hc
    obtain rfl : q1 = q := ok_unique hg hq
    rw [hret] at ho; cases ho
  · rw [callsOf, run_generates S code silent h r t1 s q1 o1 hl ht hs h0 hg ho] at hc
    simp at hc
    subst hc
    obtain rfl : q1 = q := ok_unique hg hq
    obtain rfl : optimize c q1 = o1 := ok_unique hret ho
    rw [stateAfter, run_generates S code silent h r t s q1 _ hl ht hs h0 hg ho]
    exact ⟨rfl, rfl, hlen q1⟩

/-- C12 (amended), at the sample program: the optimized sequence has 4 quadruples, the
intermediate sequence 8. -/
theorem optimized_no_longer_witness :
    (optimize sampleChoices sampleProgram).length ≤ sampleProgram.length ∧
      (stateAfter optimizerModelStages "x" true earlierState).intermediateCode =
        sampleProgram ∧
      (stateAfter optimizerModelStages "x" true earlierState).optimizedCode =
        optimize sampleChoices sampleProgram ∧
      (stateAfter optimizerModelStages "x" true earlierState).optimizedCode.length ≤
        (stateAfter optimizerModelStages "x" true earlierState).intermediateCode.length :=
  ⟨(optimized_no_longer sampleChoices (fun _ => none) optimizerModelStages "x" true
      earlierState).1 sampleProgram,
    (optimized_no_longer sampleChoices (fun _ => none) optimizerModelStages "x" true
      earlierState).2 rfl 7 sampleProgram
      (by
        rw [callsOf, run_generates optimizerModelStages "x" true earlierState
          (sampleResults (some 0)) 7 _ sampleProgram (optimize sampleChoices sampleProgram)
          rfl rfl rfl rfl rfl rfl]
        simp)
      rfl rfl⟩

end IDE
